import Mathlib

/-!
Verification of the ki_manager response-parsing / analysis pipeline.

This file gives a shallow embedding of the core logic of the repository:
`response_parser.py` (ResponseParser), `analysis_engine.py` (AnalysisEngine),
`lm_studio_client.py` (LMStudioClient) and `promt_templates.py`
(PromptTemplateManager), and proves properties of the embedded code.

Modelling conventions:
- Python dicts parsed from JSON are modelled by the inductive `JValue`;
  dicts are association lists in insertion order.
- Python floats are modelled by `Rat` (exact arithmetic).
- Python exceptions are modelled by `Except PyErr`; a raised exception is
  an `Except.error`.  `PyErr.lm` marks an `LMStudioError`, `PyErr.plain`
  anything else, mirroring the distinct `except` clauses in the engine.
- Calls into the Python standard library whose behaviour the repository
  does not define (the `json.loads` decoder, the `re` regex engine used
  with the parser's configurable pattern list, `%`-formatting of floats)
  are parameters collected in the `Lib` structure; theorems about the
  control flow of the repository hold for every `Lib`.
-/

namespace KiMgr

/-- Python whitespace characters recognised by `str.strip()` / `\s`. -/
def isPySpace (c : Char) : Bool :=
  c = ' ' || c = '\t' || c = '\n' || c = '\r' || c = '\x0b' || c = '\x0c'

/-- `str.strip()` on a character list. -/
def stripL (l : List Char) : List Char :=
  ((l.dropWhile isPySpace).reverse.dropWhile isPySpace).reverse

/-- `str.strip()`. -/
def pyStrip (s : String) : String := ⟨stripL s.data⟩

/-- `str.lower()` on one character (ASCII letters plus the German umlauts
that actually occur in the repository's vocabulary lists). -/
def pyLowerChar (c : Char) : Char :=
  if 'A' ≤ c ∧ c ≤ 'Z' then Char.ofNat (c.toNat + 32)
  else if c = 'Ä' then 'ä'
  else if c = 'Ö' then 'ö'
  else if c = 'Ü' then 'ü'
  else c

/-- `str.lower()`. -/
def pyLower (s : String) : String := ⟨s.data.map pyLowerChar⟩

/-- Boolean list-prefix test (counterpart of Python's `startswith`). -/
def pfxL : List Char → List Char → Bool
  | [], _ => true
  | _ :: _, [] => false
  | a :: as, b :: bs => a = b && pfxL as bs

/-- Substring containment, Python's `needle in hay`. -/
def subL (needle : List Char) : List Char → Bool
  | [] => needle.isEmpty
  | c :: rest => pfxL needle (c :: rest) || subL needle rest

/-- Python's `needle in hay` on strings. -/
def pyIn (needle hay : String) : Bool := subL needle.data hay.data

/-- Fuel-driven splitter behind `pySplit` (Python `str.split(sep)` with a
non-empty separator). -/
def splitOnL (sep : List Char) : Nat → List Char → List Char → List (List Char)
  | 0, s, acc => [acc.reverse ++ s]
  | _ + 1, [], acc => [acc.reverse]
  | fuel + 1, c :: rest, acc =>
    if sep ≠ [] ∧ pfxL sep (c :: rest) then
      acc.reverse :: splitOnL sep fuel ((c :: rest).drop sep.length) []
    else
      splitOnL sep fuel rest (c :: acc)

/-- Python `str.split(sep)` for a non-empty separator. -/
def pySplit (s sep : String) : List String :=
  (splitOnL sep.data (s.data.length + 1) s.data []).map (fun l => ⟨l⟩)

/-- Python `sep.join(items)` / `'\n'.join(...)`. -/
def pyJoin (sep : String) (items : List String) : String :=
  String.intercalate sep items

/-- Python `str(n)` for the few integers the code renders. -/
def natRepr (n : Nat) : String := toString n

/-- JSON-like values as produced by `json.loads`; objects keep key order. -/
inductive JValue where
  | null : JValue
  | bool : Bool → JValue
  | num : Rat → JValue
  | str : String → JValue
  | arr : List JValue → JValue
  | obj : List (String × JValue) → JValue

/-- Python truthiness of a decoded value (`bool(x)`). -/
def jTruthy : JValue → Bool
  | .null => false
  | .bool b => b
  | .num q => q ≠ 0
  | .str s => s ≠ ""
  | .arr xs => ¬ xs.isEmpty
  | .obj kvs => ¬ kvs.isEmpty

/-- Key membership in an object association list (`k in d`). -/
def objMem (kvs : List (String × JValue)) (k : String) : Bool :=
  kvs.any (fun kv => kv.1 = k)

/-- `d.get(k, default)` on an object association list. -/
def objGetD (kvs : List (String × JValue)) (k : String) (d : JValue) : JValue :=
  match kvs.find? (fun kv => kv.1 = k) with
  | some kv => kv.2
  | none => d

/-- Name of a value's Python type, used in error messages. -/
def jTypeName : JValue → String
  | .null => "NoneType"
  | .bool _ => "bool"
  | .num _ => "int"
  | .str _ => "str"
  | .arr _ => "list"
  | .obj _ => "dict"

/-- A raised Python exception: `lm` is an `LMStudioError`, `plain` any
other exception (`ValueError`, `AttributeError`, `TypeError`, ...);
the payload is `str(e)`. -/
inductive PyErr where
  | lm : String → PyErr
  | plain : String → PyErr

/-- Message carried by an exception. -/
def PyErr.msg : PyErr → String
  | .lm m => m
  | .plain m => m

/-! ## response_parser.py: structure validation -/

/-- `ResponseParser.expected_fields` (constructor), looked up with
`.get(expected_format, [])` in `_validate_structure`. -/
def expectedFields : String → List String
  | "structured_json" =>
    ["zusammenfassung", "handlungsschritte", "technische_loesungen",
     "risiken", "chancen", "erfolgsmessung", "naechste_schritte"]
  | "quick_json" =>
    ["machbarkeit", "aufwand", "kosten", "zeitrahmen", "empfehlung"]
  | "roi_json" =>
    ["investition", "einsparungen", "roi", "empfehlung"]
  | "implementation_json" =>
    ["projektphasen", "ressourcen", "timeline", "erfolgskriterien"]
  | _ => []

/-- One iteration of the `handlungsschritte` loop in
`_validate_analysis_structure`: a non-dict step multiplies the quality by
0.8, a dict step by (present step fields)/3. -/
def stepFactor (q : Rat) (step : JValue) : Rat :=
  match step with
  | .obj kvs =>
    q * ((((["titel", "beschreibung", "prioritaet"].filter
        (fun f => objMem kvs f)).length : Rat)) / 3)
  | _ => q * (8 / 10)

/-- `ResponseParser._validate_analysis_structure`. -/
def validateAnalysisStructure (kvs : List (String × JValue)) : Rat :=
  let q : Rat := 1
  let q :=
    match objGetD kvs "handlungsschritte" (.arr []) with
    | .arr steps => steps.foldl stepFactor q
    | _ => q
  let q :=
    match objGetD kvs "technische_loesungen" (.arr []) with
    | .arr sols => if ¬ sols.isEmpty then q * (11 / 10) else q
    | _ => q
  min q 1

/-- `value.lower()` where the code expects a string: any other type raises
an `AttributeError` (caught only much later, by the strategy loop of
`parse_response` or by the engine). -/
def jLowerStr : JValue → Except PyErr String
  | .str s => .ok (pyLower s)
  | v => .error (.plain ("'" ++ jTypeName v ++ "' object has no attribute 'lower'"))

/-- Closed vocabulary for `machbarkeit` in `_validate_feasibility_structure`. -/
def validFeasibility : List String :=
  ["sehr gut", "gut", "mittel", "schwierig", "unrealistisch"]

/-- Closed vocabulary for `empfehlung` in `_validate_feasibility_structure`. -/
def validRecommendations : List String :=
  ["go", "no-go", "überdenken"]

/-- `ResponseParser._validate_feasibility_structure`.  `data.get(...)`
defaults to `""`; a present non-string value makes `.lower()` raise. -/
def validateFeasibilityStructure (kvs : List (String × JValue)) :
    Except PyErr Rat :=
  match jLowerStr (objGetD kvs "machbarkeit" (.str "")) with
  | .error e => .error e
  | .ok feas =>
    let q : Rat := if validFeasibility.contains feas then 1 else 1 * (7 / 10)
    match jLowerStr (objGetD kvs "empfehlung" (.str "")) with
    | .error e => .error e
    | .ok rcm =>
      .ok (if validRecommendations.contains rcm then q else q * (8 / 10))

/-- Python `repr` of a list of strings, as interpolated into the
missing-fields messages. -/
def pyReprStrList (l : List String) : String :=
  "[" ++ pyJoin ", " (l.map (fun s => "'" ++ s ++ "'")) ++ "]"

/-- Result dictionary of `_validate_structure`. -/
structure ValidationOut where
  valid : Bool
  confidence : Rat
  errors : List String
  warnings : List String

/-- `ResponseParser._validate_structure`. -/
def validateStructure (data : JValue) (expectedFormat : String) :
    Except PyErr ValidationOut :=
  match data with
  | .obj kvs =>
    let ef := expectedFields expectedFormat
    if ef.isEmpty then
      -- fallback branch:`confidence = 0.7 if data else 0.0`
      let conf : Rat := if jTruthy (.obj kvs) then 7 / 10 else 0
      .ok ⟨decide (conf > 1 / 2), conf, [], []⟩
    else
      let present := ef.filter (fun f => objMem kvs f)
      let missing := ef.filter (fun f => ¬ objMem kvs f)
      let errors :=
        if missing.isEmpty then []
        else if missing.length = ef.length then
          ["Keine erwarteten Felder gefunden: " ++ pyReprStrList missing]
        else []
      let warnings :=
        if missing.isEmpty then []
        else if missing.length = ef.length then []
        else ["Fehlende Felder: " ++ pyReprStrList missing]
      let conf : Rat := (present.length : Rat) / (ef.length : Rat)
      let conf : Except PyErr Rat :=
        if expectedFormat = "structured_json" then
          .ok (conf * validateAnalysisStructure kvs)
        else if expectedFormat = "quick_json" then
          match validateFeasibilityStructure kvs with
          | .error e => .error e
          | .ok f => .ok (conf * f)
        else .ok conf
      match conf with
      | .error e => .error e
      | .ok c => .ok ⟨decide (c > 1 / 2) && errors.isEmpty, c, errors, warnings⟩
  | _ =>
    .ok ⟨false, 0, ["Response ist kein Dictionary"], []⟩

/-! ## response_parser.py: free-text extraction helpers -/

/-- Opening brace character (spelled via its code point). -/
def lbrace : Char := Char.ofNat 123

/-- Closing brace character (spelled via its code point). -/
def rbrace : Char := Char.ofNat 125

/-- Heading pattern 1 of `_find_text_sections`, a bold markdown heading:
two stars, a non-empty star-free title, two stars, an optional colon and
trailing whitespace.  Returns the regex group. -/
def matchBoldHeading (l : List Char) : Option (List Char) :=
  match l with
  | '*' :: '*' :: rest =>
    let t := rest.takeWhile (fun c => c ≠ '*')
    if t.isEmpty then none
    else
      match rest.dropWhile (fun c => c ≠ '*') with
      | '*' :: '*' :: tail =>
        let tail := if tail.head? = some ':' then tail.tail else tail
        if tail.all isPySpace then some t else none
      | _ => none
  | _ => none

/-- Heading pattern 2 of `_find_text_sections`: one or more hash marks,
optional whitespace, then a non-empty hash-free title reaching the end of
the (already stripped) line. -/
def matchHashHeading (l : List Char) : Option (List Char) :=
  match l with
  | '#' :: rest =>
    let body := (rest.dropWhile (fun c => c = '#')).dropWhile isPySpace
    if body.isEmpty ∨ body.any (fun c => c = '#') then none else some body
  | _ => none

/-- Heading pattern 3 of `_find_text_sections`: an uppercase (German)
letter, a colon-free middle and a final colon. -/
def matchColonHeading (l : List Char) : Option (List Char) :=
  match l with
  | c :: rest =>
    if (('A' ≤ c ∧ c ≤ 'Z') ∨ c = 'Ä' ∨ c = 'Ö' ∨ c = 'Ü') ∧
        rest.getLast? = some ':' ∧ rest.dropLast.all (fun d => d ≠ ':') then
      some (c :: rest.dropLast)
    else none
  | _ => none

/-- The three heading patterns of `_find_text_sections`, tried in order. -/
def headingMatch (l : List Char) : Option (List Char) :=
  (matchBoldHeading l).orElse fun _ =>
    (matchHashHeading l).orElse fun _ => matchColonHeading l

/-- Insertion-order-preserving dict assignment `d[k] = v`. -/
def dictSet (d : List (String × String)) (k v : String) :
    List (String × String) :=
  if d.any (fun kv => kv.1 = k) then
    d.map (fun kv => if kv.1 = k then (k, v) else kv)
  else d ++ [(k, v)]

/-- Save the previous section, as `_find_text_sections` does at a new
heading and at the end of the text: only saved when content is present. -/
def saveSection (cur : Option String) (content : List String)
    (secs : List (String × String)) : List (String × String) :=
  match cur with
  | some t => if content.isEmpty then secs else dictSet secs t (pyJoin "\n" content.reverse)
  | none => secs

/-- Line loop of `ResponseParser._find_text_sections`. -/
def findSectionsLoop : List String → Option String → List String →
    List (String × String) → List (String × String)
  | [], cur, content, secs => saveSection cur content secs
  | line :: rest, cur, content, secs =>
    let l := pyStrip line
    if l = "" then findSectionsLoop rest cur content secs
    else
      match headingMatch l.data with
      | some title =>
        findSectionsLoop rest (some (pyStrip ⟨title⟩)) []
          (saveSection cur content secs)
      | none =>
        match cur with
        | some _ => findSectionsLoop rest cur (l :: content) secs
        | none => findSectionsLoop rest cur content secs

/-- `ResponseParser._find_text_sections`. -/
def findTextSections (text : String) : List (String × String) :=
  findSectionsLoop (pySplit text "\n") none [] []

/-- Section-to-field keyword table for the full-analysis format
(`_map_section_to_field`). -/
def structuredMappings : List (String × List String) :=
  [("zusammenfassung", ["zusammenfassung", "summary", "einschätzung"]),
   ("handlungsschritte", ["handlungsschritte", "schritte", "maßnahmen", "actions"]),
   ("technische_loesungen", ["technische", "lösungen", "solutions", "tools"]),
   ("risiken", ["risiken", "risks", "gefahren"]),
   ("chancen", ["chancen", "opportunities", "vorteile"]),
   ("naechste_schritte", ["nächste", "next steps", "empfehlungen"])]

/-- Section-to-field keyword table for the quick-feasibility format. -/
def quickMappings : List (String × List String) :=
  [("machbarkeit", ["machbarkeit", "feasibility"]),
   ("aufwand", ["aufwand", "effort"]),
   ("empfehlung", ["empfehlung", "recommendation"])]

/-- `ResponseParser._map_section_to_field`. -/
def mapSectionToField (sectionTitle expectedFormat : String) : Option String :=
  let tl := pyLower sectionTitle
  let m :=
    if expectedFormat = "structured_json" then structuredMappings
    else if expectedFormat = "quick_json" then quickMappings
    else []
  (m.find? (fun fk => fk.2.any (fun kw => pyIn kw tl))).map (fun fk => fk.1)

/-- List-item pattern 1 of `_extract_lists_from_text`: bullet marker plus
non-empty rest; the item is the stripped rest. -/
def matchP1 : List Char → Option String
  | c :: rest =>
    if (c = '-' ∨ c = '*' ∨ c = '•') ∧ ¬ rest.isEmpty then some (pyStrip ⟨rest⟩)
    else none
  | [] => none

/-- List-item pattern 2: one or more digits, a dot, non-empty rest. -/
def matchP2 (l : List Char) : Option String :=
  let ds := l.takeWhile Char.isDigit
  match l.drop ds.length with
  | '.' :: rest =>
    if ¬ ds.isEmpty ∧ ¬ rest.isEmpty then some (pyStrip ⟨rest⟩) else none
  | _ => none

/-- List-item pattern 3: a lowercase letter, a closing paren, non-empty rest. -/
def matchP3 : List Char → Option String
  | c :: ')' :: rest =>
    if ('a' ≤ c ∧ c ≤ 'z') ∧ ¬ rest.isEmpty then some (pyStrip ⟨rest⟩) else none
  | _ => none

/-- The three list-item patterns, tried in order on a raw (unstripped)
line; leading whitespace is consumed by the patterns themselves. -/
def matchListItem (line : String) : Option String :=
  let l1 := line.data.dropWhile isPySpace
  (matchP1 l1).orElse fun _ => (matchP2 l1).orElse fun _ => matchP3 l1

/-- The three buckets built by `_extract_lists_from_text`; the Python
value is a dict with these three keys, which is always truthy. -/
structure TextLists where
  schritte : List String
  empfehlungen : List String
  allgemein : List String

/-- Keyword bucketing of one extracted item in `_extract_lists_from_text`. -/
def categorize (ls : TextLists) (item : String) : TextLists :=
  let il := pyLower item
  if ["schritt", "maßnahme", "aktion"].any (fun w => pyIn w il) then
    { ls with schritte := ls.schritte ++ [item] }
  else if ["empfehlung", "sollte", "muss"].any (fun w => pyIn w il) then
    { ls with empfehlungen := ls.empfehlungen ++ [item] }
  else { ls with allgemein := ls.allgemein ++ [item] }

/-- `ResponseParser._extract_lists_from_text`. -/
def extractListsFromText (text : String) : TextLists :=
  (pySplit text "\n").foldl
    (fun ls line =>
      match matchListItem line with
      | some item => categorize ls item
      | none => ls)
    ⟨[], [], []⟩

/-- `ResponseParser._extract_feasibility_from_text`; always returns the
same four keys. -/
def extractFeasibilityFromText (text : String) : List (String × JValue) :=
  let tl := pyLower text
  let feas :=
    if ["sehr gut", "excellent", "einfach"].any (fun w => pyIn w tl) then "sehr gut"
    else if ["gut", "machbar", "realistisch"].any (fun w => pyIn w tl) then "gut"
    else if ["schwierig", "herausfordernd", "komplex"].any (fun w => pyIn w tl) then "schwierig"
    else if ["unrealistisch", "unmöglich", "nicht machbar"].any (fun w => pyIn w tl) then "unrealistisch"
    else "mittel"
  let effort :=
    if ["geringer aufwand", "wenig aufwand", "einfach"].any (fun w => pyIn w tl) then "gering"
    else if ["hoher aufwand", "sehr aufwendig", "kompliziert"].any (fun w => pyIn w tl) then "hoch"
    else "mittel"
  let rcm :=
    if pyIn "empfehlung" tl ∧ pyIn "ja" tl then "go"
    else if ["nicht empfohlen", "nein", "stoppen"].any (fun w => pyIn w tl) then "no-go"
    else if ["sehr gut", "gut"].contains feas ∧ ["gering", "mittel"].contains effort then "go"
    else "überdenken"
  [("machbarkeit", .str feas), ("aufwand", .str effort),
   ("empfehlung", .str rcm), ("begruendung", .str "Aus Freitext extrahiert")]

/-- `ResponseParser._extract_summary`. -/
def extractSummary (text : String) : String :=
  let paragraphs := ((pySplit text "\n\n").map pyStrip).filter (fun p => p ≠ "")
  match paragraphs with
  | p :: _ => if p.data.length > 300 then String.mk (p.data.take 297) ++ "..." else p
  | [] => "Keine Zusammenfassung verfügbar"

/-- Keyword markers of `_extract_recommendations`. -/
def recommendationMarkers : List String :=
  ["empfehlung", "sollte", "muss", "wichtig", "nächster schritt"]

/-- `ResponseParser._extract_recommendations`. -/
def extractRecommendations (text : String) : List String :=
  (pySplit text "\n").foldl
    (fun acc line =>
      let l := pyStrip line
      if recommendationMarkers.any (fun m => pyIn m (pyLower l)) then acc ++ [l]
      else acc)
    []

/-- `ResponseParser._extract_analysis_from_text`; always returns the same
three keys. -/
def extractAnalysisFromText (text : String) : List (String × JValue) :=
  let paragraphs := ((pySplit text "\n\n").map pyStrip).filter (fun p => p ≠ "")
  let summary :=
    match paragraphs with
    | p :: _ => p
    | [] => "Keine Zusammenfassung verfügbar"
  let lists := extractListsFromText text
  [("zusammenfassung", .str summary),
   ("handlungsschritte", .arr (lists.schritte.map
     (fun item => .obj [("titel", .str item), ("beschreibung", .str item)]))),
   ("naechste_schritte", .arr
     ((if ¬ lists.empfehlungen.isEmpty then lists.empfehlungen
       else lists.allgemein).map .str))]

/-! ## response_parser.py: parsing strategies -/

/-- The `ParseResult` dataclass. -/
structure ParseResult where
  success : Bool
  data : JValue
  formatDetected : String
  confidence : Rat
  errors : List String
  warnings : List String

/-- `ResponseParser._parse_fallback_text` (strategy 4); its Python body
performs only string scanning and cannot raise, hence a total function. -/
def parseFallbackText (response expectedFormat : String) : ParseResult :=
  let extracted : List (String × JValue) :=
    if expectedFormat = "quick_json" then extractFeasibilityFromText response
    else if expectedFormat = "structured_json" then extractAnalysisFromText response
    else
      [("zusammenfassung", .str (extractSummary response)),
       ("empfehlungen", .arr ((extractRecommendations response).map .str))]
  ⟨jTruthy (.obj extracted), .obj extracted, "fallback_text", 3 / 10, [],
   ["Fallback Text-Parsing verwendet - Struktur möglicherweise unvollständig"]⟩

/-- Insertion-order-preserving dict assignment on decoded dicts. -/
def jdictSet (d : List (String × JValue)) (k : String) (v : JValue) :
    List (String × JValue) :=
  if d.any (fun kv => kv.1 = k) then
    d.map (fun kv => if kv.1 = k then (k, v) else kv)
  else d ++ [(k, v)]

/-- `ResponseParser._extract_structured_text`: confidence starts at 0.4,
gains 0.1 per mapped section, and (because the three-key lists dict is
always truthy) unconditionally gains 0.2 for lists, capped at 1. -/
def extractStructuredText (response expectedFormat : String) : ParseResult :=
  let acc :=
    (findTextSections response).foldl
      (fun (acc : List (String × JValue) × Rat) sec =>
        match mapSectionToField sec.1 expectedFormat with
        | some fld => (jdictSet acc.1 fld (.str (pyStrip sec.2)), acc.2 + 1 / 10)
        | none => acc)
      ([], 4 / 10)
  let lists := extractListsFromText response
  let ed :=
    if expectedFormat = "structured_json" then
      jdictSet (jdictSet acc.1 "handlungsschritte" (.arr (lists.schritte.map .str)))
        "naechste_schritte" (.arr (lists.empfehlungen.map .str))
    else acc.1
  let conf := acc.2 + 2 / 10
  ⟨jTruthy (.obj ed), .obj ed, "structured_text", min conf 1, [],
   ["Strukturierte Text-Extraktion - möglicherweise unvollständig"]⟩

/-- `ResponseParser._create_text_fallback`. -/
def createTextFallback (response : String) (errors : List String) : JValue :=
  .obj [("zusammenfassung", .str "Parsing fehlgeschlagen - Originaltext verfügbar"),
        ("raw_response", .str response),
        ("parsing_errors", .arr (errors.map .str)),
        ("naechste_schritte", .arr
          [.str "Response manuell prüfen",
           .str "Prompt-Template überarbeiten",
           .str "KI-Modell-Parameter anpassen"])]

/-- `ResponseParser._detect_format`. -/
def detectFormat (response : String) : String :=
  let rl := pyLower response
  if [String.mk [lbrace], String.mk [rbrace], "[", "]"].any
      (fun p => pyIn p response) then
    if pyIn "projektphasen" rl then "implementation_json"
    else if pyIn "machbarkeit" rl then "quick_json"
    else if pyIn "investition" rl ∨ pyIn "roi" rl then "roi_json"
    else "structured_json"
  else "text"

/-- Standard-library behaviour the repository calls but does not define:
the JSON decoder (`None` models a `json.JSONDecodeError`), the regex
engine applied to the parser's fixed pattern lists (`findall i` is
`re.findall` with the i-th pattern of `self.json_patterns`, `reSub i` the
i-th substitution performed by `_clean_json_string`), and `%`-style float
formatting.  All control-flow theorems below hold for every `Lib`. -/
structure Lib where
  jsonLoads : String → Option JValue
  findall : Nat → String → List String
  reSub : Nat → String → String
  pctFormat : Rat → String
  reprJ : JValue → String

/-- `ResponseParser._clean_json_string`: strip, remove the markdown fence
markers, then quote bare keys, quote bare scalar values and drop trailing
commas (substitutions 2-5), in source order. -/
def cleanJsonString (lib : Lib) (s : String) : String :=
  lib.reSub 5 (lib.reSub 4 (lib.reSub 3 (lib.reSub 2 (lib.reSub 1 (lib.reSub 0 (pyStrip s))))))

/-- `ResponseParser._parse_clean_json`.  A decode failure is caught inside
the strategy; a validation `AttributeError` escapes to the strategy loop. -/
def parseCleanJson (lib : Lib) (response expectedFormat : String) :
    Except PyErr ParseResult :=
  match lib.jsonLoads (pyStrip response) with
  | none => .ok ⟨false, .obj [], "none", 0, ["JSON Decode Error"], []⟩
  | some data =>
    match validateStructure data expectedFormat with
    | .error e => .error e
    | .ok v => .ok ⟨v.valid, data, "clean_json", v.confidence, v.errors, v.warnings⟩

/-- Inner candidate loop of `_parse_markdown_json` over the matches of one
pattern: first candidate that decodes and is valid or scores above 0.5. -/
def mdScanMatches (lib : Lib) (fmt : String) :
    List String → Except PyErr (Option ParseResult)
  | [] => .ok none
  | m :: rest =>
    match lib.jsonLoads (cleanJsonString lib m) with
    | none => mdScanMatches lib fmt rest
    | some data =>
      match validateStructure data fmt with
      | .error e => .error e
      | .ok v =>
        if v.valid ∨ v.confidence > 1 / 2 then
          .ok (some ⟨v.valid, data, "markdown_json", v.confidence, v.errors, v.warnings⟩)
        else mdScanMatches lib fmt rest

/-- Outer pattern loop of `_parse_markdown_json`. -/
def mdScanPatterns (lib : Lib) (response fmt : String) :
    List Nat → Except PyErr (Option ParseResult)
  | [] => .ok none
  | i :: rest =>
    match mdScanMatches lib fmt (lib.findall i response) with
    | .error e => .error e
    | .ok (some r) => .ok (some r)
    | .ok none => mdScanPatterns lib response fmt rest

/-- `ResponseParser._parse_markdown_json`. -/
def parseMarkdownJson (lib : Lib) (response fmt : String) :
    Except PyErr ParseResult :=
  match mdScanPatterns lib response fmt [0, 1, 2, 3] with
  | .error e => .error e
  | .ok (some r) => .ok r
  | .ok none =>
    .ok ⟨false, .obj [], "none", 0, ["Kein valides JSON in Markdown gefunden"], []⟩

/-- One character step of the balanced-brace scanner of
`_parse_mixed_content`; state is (candidate start index, nesting count,
collected candidates). -/
def braceStep (cs : List Char) (st : Option Nat × Int × List (List Char))
    (p : Nat × Char) : Option Nat × Int × List (List Char) :=
  let (start, count, out) := st
  if p.2 = lbrace then
    (if count = 0 then some p.1 else start, count + 1, out)
  else if p.2 = rbrace then
    let count := count - 1
    match start with
    | some s =>
      if count = 0 then (none, count, out ++ [(cs.drop s).take (p.1 + 1 - s)])
      else (some s, count, out)
    | none => (none, count, out)
  else st

/-- Balanced `{...}` spans enumerated by `_parse_mixed_content`. -/
def braceCandidates (response : String) : List String :=
  ((response.data.enum.foldl (braceStep response.data) (none, 0, [])).2.2).map
    (fun l => String.mk l)

/-- Candidate loop of `_parse_mixed_content`, keeping the strictly best
candidate by confidence (earliest wins ties). -/
def mixedScan (lib : Lib) (fmt : String) :
    List String → Option ParseResult → Except PyErr (Option ParseResult)
  | [], best => .ok best
  | c :: rest, best =>
    match lib.jsonLoads (cleanJsonString lib c) with
    | none => mixedScan lib fmt rest best
    | some data =>
      match validateStructure data fmt with
      | .error e => .error e
      | .ok v =>
        let r : ParseResult := ⟨v.valid, data, "mixed_content", v.confidence, v.errors, v.warnings⟩
        let best' :=
          match best with
          | none => some r
          | some b => if v.confidence > b.confidence then some r else some b
        mixedScan lib fmt rest best'

/-- `ResponseParser._parse_mixed_content`. -/
def parseMixedContent (lib : Lib) (response fmt : String) :
    Except PyErr ParseResult :=
  match mixedScan lib fmt (braceCandidates response) none with
  | .error e => .error e
  | .ok (some r) => .ok r
  | .ok none => .ok (extractStructuredText response fmt)

/-! ## response_parser.py: the strategy chain of `parse_response` -/

/-- Accumulated state of the strategy loop: collected error strings and
the best partial result so far. -/
structure LoopState where
  errors : List String
  best : Option ParseResult

/-- The strategy loop of `parse_response`: each strategy either raised
(error collected, loop continues), succeeded (its data returned
immediately), or failed (errors collected, best partial result kept by
strict confidence comparison). -/
def runStrategyList :
    List (String × Except PyErr ParseResult) → LoopState → Sum JValue LoopState
  | [], st => .inr st
  | (name, res) :: rest, st =>
    match res with
    | .error e => runStrategyList rest ⟨st.errors ++ [name ++ ": " ++ e.msg], st.best⟩
    | .ok r =>
      if r.success then .inl r.data
      else
        runStrategyList rest
          ⟨st.errors ++ r.errors,
           match st.best with
           | none => some r
           | some b => if r.confidence > b.confidence then some r else some b⟩

/-- The four strategies of `parse_response`, in source order, applied to
one response. -/
def strategyResults (lib : Lib) (response fmt : String) :
    List (String × Except PyErr ParseResult) :=
  [("_parse_clean_json", parseCleanJson lib response fmt),
   ("_parse_markdown_json", parseMarkdownJson lib response fmt),
   ("_parse_mixed_content", parseMixedContent lib response fmt),
   ("_parse_fallback_text", .ok (parseFallbackText response fmt))]

/-- `ResponseParser.parse_response`.  The only uncaught exception is the
`ValueError` on empty or whitespace-only input. -/
def parse_response (lib : Lib) (rawResponse expectedFormat : String) :
    Except PyErr JValue :=
  if rawResponse = "" ∨ pyStrip rawResponse = "" then
    .error (.plain "Leere Response erhalten")
  else
    let fmt := if expectedFormat = "auto" then detectFormat rawResponse else expectedFormat
    match runStrategyList (strategyResults lib rawResponse fmt) ⟨[], none⟩ with
    | .inl data => .ok data
    | .inr st =>
      match st.best with
      | some b =>
        if jTruthy b.data then .ok b.data
        else .ok (createTextFallback rawResponse st.errors)
      | none => .ok (createTextFallback rawResponse st.errors)

/-! ## lm_studio_client.py -/

/-- Python `len(x)`; raises a `TypeError` for sizeless values. -/
def jLen : JValue → Except PyErr Nat
  | .arr xs => .ok xs.length
  | .str s => .ok s.data.length
  | .obj kvs => .ok kvs.length
  | v => .error (.plain ("object of type '" ++ jTypeName v ++ "' has no len()"))

/-- Python `f in x` for a string `f`: key membership for dicts, element
equality for lists, substring test for strings, `TypeError` otherwise. -/
def jContains (d : JValue) (f : String) : Except PyErr Bool :=
  match d with
  | .obj kvs => .ok (objMem kvs f)
  | .arr xs => .ok (xs.any (fun v => match v with | .str s => s = f | _ => false))
  | .str s => .ok (pyIn f s)
  | v => .error (.plain ("argument of type '" ++ jTypeName v ++ "' is not iterable"))

/-- Python `x[f]` for a string key `f` on a value known to contain `f`. -/
def jIndex (d : JValue) (f : String) : Except PyErr JValue :=
  match d with
  | .obj kvs =>
    match kvs.find? (fun kv => kv.1 = f) with
    | some kv => .ok kv.2
    | none => .error (.plain f)
  | .arr _ => .error (.plain "list indices must be integers or slices, not str")
  | .str _ => .error (.plain "string indices must be integers")
  | v => .error (.plain ("'" ++ jTypeName v ++ "' object is not subscriptable"))

/-- Python `x[0]` as used on `choices` in `extract_response_text`; the
`IndexError`/`KeyError` cases are the ones its `except` clause wraps
into an `LMStudioError`. -/
def pyIndex0 : JValue → Except PyErr JValue
  | .arr (x :: _) => .ok x
  | .arr [] => .error (.lm "Fehler beim Extrahieren der Antwort: list index out of range")
  | .str s => .ok (.str (String.mk (s.data.take 1)))
  | .obj _ => .error (.lm "Fehler beim Extrahieren der Antwort: 0")
  | v => .error (.plain ("'" ++ jTypeName v ++ "' object is not subscriptable"))

/-- Python `x.get(k, d)`: an `AttributeError` on non-dicts. -/
def pyGetAttrDict (v : JValue) (k : String) (d : JValue) : Except PyErr JValue :=
  match v with
  | .obj kvs => .ok (objGetD kvs k d)
  | w => .error (.plain ("'" ++ jTypeName w ++ "' object has no attribute 'get'"))

/-- `LMStudioClient.extract_response_text`. -/
def extractResponseText (response : JValue) : Except PyErr String :=
  match pyGetAttrDict response "choices" (.arr []) with
  | .error e => .error e
  | .ok choices =>
    if ¬ jTruthy choices then .error (.lm "Keine Antwort-Choices in Response")
    else
      match pyIndex0 choices with
      | .error e => .error e
      | .ok first =>
        match pyGetAttrDict first "message" (.obj []) with
        | .error e => .error e
        | .ok message =>
          match pyGetAttrDict message "content" (.str "") with
          | .error e => .error e
          | .ok content =>
            if ¬ jTruthy content then .error (.lm "Leere Antwort erhalten")
            else
              match content with
              | .str s => .ok (pyStrip s)
              | v => .error (.plain ("'" ++ jTypeName v ++ "' object has no attribute 'strip'"))

/-- The fields of `LMStudioConfig` that `generate_completion` reads. -/
structure LMConfig where
  maxRetries : Nat
  timeout : Nat

/-- Outcome of one `session.post` attempt: a decoded 2xx response, an
HTTP failure status with body text (and, for 422, the decoded `detail`
field), a timeout, or a network error. -/
inductive Attempt where
  | ok : JValue → Attempt
  | http : Nat → String → Option String → Attempt
  | timeout : Attempt
  | netErr : String → Attempt

/-- Is the attempt outcome a retry-eligible transient failure? -/
def Attempt.transient : Attempt → Bool
  | .ok _ => false
  | .http code _ _ => code ≠ 200 ∧ code ≠ 422
  | .timeout => true
  | .netErr _ => true

/-- The `last_error` message recorded for a transient failure. -/
def transientMsg (cfg : LMConfig) : Attempt → String
  | .http code text _ => "HTTP " ++ natRepr code ++ ": " ++ text
  | .timeout => "Timeout nach " ++ natRepr cfg.timeout ++ " Sekunden"
  | .netErr m => "Netzwerk-Fehler: " ++ m
  | .ok _ => ""

/-- Trace of one `generate_completion` call: its final outcome, the
back-off sleeps performed (in order, in seconds) and the number of
attempts issued. -/
structure GenTrace where
  result : Except String JValue
  sleeps : List Nat
  attemptsUsed : Nat

/-- The three ways one attempt can end inside the retry loop: HTTP 200
(return), HTTP 422 (raise immediately), and everything else the `except`
clauses catch (retry-eligible). -/
inductive StepKind where
  | success : JValue → StepKind
  | validationFail : Option String → StepKind
  | transientFail : StepKind

/-- Classification of an attempt outcome by the `if/elif/else` and
`except` structure of `generate_completion`. -/
def classify : Attempt → StepKind
  | .ok r => .success r
  | .http 422 _ detail => .validationFail detail
  | .http _ _ _ => .transientFail
  | .timeout => .transientFail
  | .netErr _ => .transientFail

/-- Retry loop of `LMStudioClient.generate_completion`: attempt `i` of
`cfg.maxRetries`; on 200 return, on 422 raise immediately, on a transient
failure record the error and sleep `2 ^ i` unless this was the final
attempt. -/
def genLoop (cfg : LMConfig) (attempts : Nat → Attempt) :
    Nat → Nat → Option String → List Nat → Nat → GenTrace
  | 0, _, lastError, sleeps, used =>
    -- loop exhausted: `raise last_error or LMStudioError("Unbekannter Fehler")`
    ⟨.error (lastError.getD "Unbekannter Fehler"), sleeps, used⟩
  | remaining + 1, i, _, sleeps, used =>
    match classify (attempts i) with
    | .success result => ⟨.ok result, sleeps, used + 1⟩
    | .validationFail detail =>
      ⟨.error ("Validierungsfehler: " ++ detail.getD "Validation Error"), sleeps, used + 1⟩
    | .transientFail =>
      let msg := transientMsg cfg (attempts i)
      if remaining = 0 then ⟨.error msg, sleeps, used + 1⟩
      else genLoop cfg attempts remaining (i + 1) (some msg) (sleeps ++ [2 ^ i]) (used + 1)

/-- `LMStudioClient.generate_completion`, parameterised by the outcome of
each HTTP attempt. -/
def generate_completion (cfg : LMConfig) (attempts : Nat → Attempt) : GenTrace :=
  genLoop cfg attempts cfg.maxRetries 0 none [] 0

/-! ## analysis_engine.py -/

/-- The per-template required-field table of
`AnalysisEngine._calculate_confidence_score`. -/
def engineExpectedFields : String → List String
  | "use_case_analysis" => ["zusammenfassung", "handlungsschritte", "technische_loesungen"]
  | "quick_feasibility" => ["machbarkeit", "aufwand", "empfehlung"]
  | "roi_analysis" => ["investition", "einsparungen", "roi"]
  | "implementation_plan" => ["projektphasen", "timeline"]
  | _ => []

/-- Count of required fields present in the parsed data (factor 1). -/
def countPresent (parsed : JValue) : List String → Except PyErr Nat
  | [] => .ok 0
  | f :: rest =>
    match jContains parsed f with
    | .error e => .error e
    | .ok b =>
      match countPresent parsed rest with
      | .error e => .error e
      | .ok n => .ok (if b then n + 1 else n)

/-- Response-length factor (factor 2). -/
def lengthScore (n : Nat) : Rat :=
  if n > 2000 then 1 else if n > 1000 then 8 / 10 else if n > 500 then 6 / 10 else 4 / 10

/-- Total length of the three recommendation-like list fields (factor 4). -/
def detailCount (parsed : JValue) : List String → Except PyErr Nat
  | [] => .ok 0
  | f :: rest =>
    match jContains parsed f with
    | .error e => .error e
    | .ok b =>
      if b then
        match jIndex parsed f with
        | .error e => .error e
        | .ok v =>
          match jLen v with
          | .error e => .error e
          | .ok l =>
            match detailCount parsed rest with
            | .error e => .error e
            | .ok n => .ok (l + n)
      else detailCount parsed rest

/-- Bucketed recommendation-count factor (factor 4). -/
def detailScore (n : Nat) : Rat :=
  if n ≥ 5 then 1 else if n ≥ 3 then 8 / 10 else if n ≥ 1 then 6 / 10 else 2 / 10

/-- Is the decoded value a dict? -/
def jIsObj : JValue → Bool
  | .obj _ => true
  | _ => false

/-- Factor 1 of `_calculate_confidence_score`: the completeness fraction,
contributed only when the template has a required-field list. -/
def completenessFactor (parsed : JValue) (required : List String) :
    Except PyErr (List Rat) :=
  if required.isEmpty then .ok []
  else
    match countPresent parsed required with
    | .error e => .error e
    | .ok p => .ok [(p : Rat) / (required.length : Rat)]

/-- `AnalysisEngine._calculate_confidence_score`.  The four factors are
appended in source order; a `TypeError` from `len()` on a sizeless field
value propagates. -/
def calculateConfidenceScore (parsed : JValue) (raw : String)
    (templateName : String) : Except PyErr Rat :=
  match completenessFactor parsed (engineExpectedFields templateName) with
  | .error e => .error e
  | .ok factors0 =>
    let factors := factors0 ++ [lengthScore raw.data.length]
    let factors := factors ++ [if jTruthy parsed ∧ jIsObj parsed then 1 else 3 / 10]
    match detailCount parsed ["handlungsschritte", "technische_loesungen", "naechste_schritte"] with
    | .error e => .error e
    | .ok d =>
      let factors := factors ++ [detailScore d]
      .ok (if factors.isEmpty then 1 / 2 else factors.sum / (factors.length : Rat))

/-- The fields of a `PromptTemplate` that `analyze_use_case` reads. -/
structure TemplateLite where
  expectedFormat : String

/-- The slice of an `AIAnalysis` needed by the claims: identifier, raw
response text and final confidence score. -/
structure AnalysisLite where
  id : String
  rawResponse : String
  confidenceScore : Rat

/-- External inputs of one `analyze_use_case` call: the outcome of
`validate_template_data`, the template registry lookup, the network
outcome of `generate_completion`, and the generated analysis id. -/
structure AnalyzeEnv where
  validationValid : Bool
  validationError : String
  template : Option TemplateLite
  callResult : Except PyErr JValue
  analysisId : String

/-- Wrapping of any exception escaping the `try` block of
`analyze_use_case`: an `LMStudioError` becomes
`"LM Studio Fehler: ..."`, anything else
`"Analyse fehlgeschlagen: ..."`, both `AnalysisEngineError`s. -/
def wrapEngineErr : PyErr → String
  | .lm m => "LM Studio Fehler: " ++ m
  | .plain m => "Analyse fehlgeschlagen: " ++ m

/-- Body of the `try` block of `AnalysisEngine.analyze_use_case`. -/
def analyzeBody (lib : Lib) (env : AnalyzeEnv) (templateName : String) :
    Except PyErr AnalysisLite :=
  -- data validation; the engine's own AnalysisEngineError is re-wrapped
  -- by the generic except clause
  if ¬ env.validationValid then
    .error (.plain ("Datenvalidierung fehlgeschlagen: " ++ env.validationError))
  else
    -- format_prompt raises ValueError when the template is unknown
    match env.template with
    | none => .error (.plain ("Template '" ++ templateName ++ "' nicht gefunden"))
    | some template =>
      match env.callResult with
      | .error e => .error e
      | .ok response =>
        match extractResponseText response with
        | .error e => .error e
        | .ok raw =>
          match parse_response lib raw template.expectedFormat with
          | .error e => .error e
          | .ok parsed =>
            match calculateConfidenceScore parsed raw templateName with
            | .error e => .error e
            | .ok conf => .ok ⟨env.analysisId, raw, conf⟩

/-- `AnalysisEngine.analyze_use_case`: the `try` body with both `except`
clauses applied; every error message is prefixed, hence non-empty. -/
def analyzeUseCase (lib : Lib) (env : AnalyzeEnv) (templateName : String) :
    Except String AnalysisLite :=
  match analyzeBody lib env templateName with
  | .ok a => .ok a
  | .error e => .error (wrapEngineErr e)

/-- Heterogeneous values stored in the result dictionaries the engine
returns (`quick_feasibility_check`, `compare_use_cases`). -/
inductive PyVal where
  | b : Bool → PyVal
  | q : Rat → PyVal
  | s : String → PyVal
  | j : JValue → PyVal
  | an : AnalysisLite → PyVal

/-- Result dictionary: association list in insertion order. -/
abbrev Record := List (String × PyVal)

/-- Lookup in a result dictionary (`r.get(k)` without default). -/
def recGet (r : Record) (k : String) : Option PyVal :=
  match r.find? (fun kv => kv.1 = k) with
  | some kv => some kv.2
  | none => none

/-- The error record built by the `except` clause of
`quick_feasibility_check`: exactly these three keys. -/
def feasErrRecord (msg : String) : Record :=
  [("feasible", .b false), ("error", .s msg), ("confidence", .q 0)]

/-- Python `x == lit` for a string literal: values of another type
compare unequal without raising. -/
def jEqStr (v : JValue) (lit : String) : Bool :=
  match v with
  | .str s => s = lit
  | _ => false

/-- The success record built by `quick_feasibility_check`. -/
def feasOkRecord (a : AnalysisLite) (parsed : List (String × JValue)) : Record :=
  [("analysis_id", .s a.id),
   ("feasible", .b (jEqStr (objGetD parsed "empfehlung" (.str "überdenken")) "go")),
   ("feasibility_level", .j (objGetD parsed "machbarkeit" (.str "mittel"))),
   ("effort", .j (objGetD parsed "aufwand" (.str "mittel"))),
   ("cost_estimate", .j (objGetD parsed "kosten" (.str "unbekannt"))),
   ("timeframe", .j (objGetD parsed "zeitrahmen" (.str "unbekannt"))),
   ("main_obstacles", .j (objGetD parsed "haupthindernisse" (.arr []))),
   ("confidence", .q a.confidenceScore),
   ("full_analysis", .an a)]

/-- `AnalysisEngine.quick_feasibility_check`: runs `analyze_use_case`
with the `quick_feasibility` template, re-parses the raw response against
`quick_json`, and converts any exception into the fixed error record. -/
def quickFeasibilityCheck (lib : Lib) (env : AnalyzeEnv) : Record :=
  match analyzeUseCase lib env "quick_feasibility" with
  | .error msg => feasErrRecord msg
  | .ok a =>
    match parse_response lib a.rawResponse "quick_json" with
    | .error e => feasErrRecord e.msg
    | .ok parsed =>
      match parsed with
      | .obj kvs => feasOkRecord a kvs
      | v =>
        -- parse_response only ever returns dicts; `.get` on anything else
        -- would raise and be converted like every other exception
        feasErrRecord ("'" ++ jTypeName v ++ "' object has no attribute 'get'")

/-! ## analysis_engine.py: compare_use_cases -/

/-- The field of a use-case record that `compare_use_cases` reads. -/
structure UseCaseLite where
  beschreibung : Option String

/-- Insertion-order-preserving assignment on a result dictionary. -/
def recSet (r : Record) (k : String) (v : PyVal) : Record :=
  if r.any (fun kv => kv.1 = k) then
    r.map (fun kv => if kv.1 = k then (k, v) else kv)
  else r ++ [(k, v)]

/-- Per-case loop of `compare_use_cases`: run the feasibility probe and
attach the use-case index and truncated title. -/
def buildFeasResults (lib : Lib) : List (UseCaseLite × AnalyzeEnv) → Nat → List Record
  | [], _ => []
  | (uc, env) :: rest, i =>
    let r := quickFeasibilityCheck lib env
    let title := String.mk ((uc.beschreibung.getD ("Use Case " ++ natRepr (i + 1))).data.take 50)
    let r := recSet (recSet r "use_case_index" (.q i)) "use_case_title" (.s title)
    r :: buildFeasResults lib rest (i + 1)

/-- The fixed effort-to-score table of `AnalysisEngine._effort_to_score`
(`.get(..., 2.5)` on the lowered string). -/
def effortMapping (s : String) : Rat :=
  if s = "gering" then 4
  else if s = "mittel" then 3
  else if s = "hoch" then 2
  else if s = "sehr hoch" then 1
  else 5 / 2

/-- `AnalysisEngine._effort_to_score`: lowering a non-string effort value
raises an `AttributeError`. -/
def effortToScore (v : JValue) : Except PyErr Rat :=
  match jLowerStr v with
  | .error e => .error e
  | .ok s => .ok (effortMapping s)

/-- Decoded-value view of a stored result value, for re-use as a Python
value (`None` for the analysis object, which never occurs in a key the
sort reads). -/
def pyValToJ : PyVal → Option JValue
  | .j v => some v
  | .s s => some (.str s)
  | .b b => some (.bool b)
  | .q q => some (.num q)
  | .an _ => none

/-- The sort key of `compare_use_cases`:
`(x.get("feasible", False), x.get("confidence", 0.0), effort score)`,
with the boolean rendered as 0/1 for the lexicographic comparison.  The
records produced by `quick_feasibility_check` always store a boolean
and a float under those keys. -/
def recKey (r : Record) : Except PyErr (Rat × Rat × Rat) :=
  match effortToScore
      (match recGet r "effort" with
       | none => .str "hoch"
       | some p => (pyValToJ p).getD .null) with
  | .error e => .error e
  | .ok e =>
    .ok ((match recGet r "feasible" with | some (.b true) => 1 | _ => 0 : Rat),
         (match recGet r "confidence" with | some (.q q) => q | _ => 0 : Rat),
         e)

/-- Lexicographic order on sort-key triples (Python tuple comparison). -/
def lex3Le (a b : Rat × Rat × Rat) : Prop :=
  a.1 < b.1 ∨ (a.1 = b.1 ∧ (a.2.1 < b.2.1 ∨ (a.2.1 = b.2.1 ∧ a.2.2 ≤ b.2.2)))

/-- Decidability of the lexicographic key order. -/
instance lex3LeDecidable (a b : Rat × Rat × Rat) : Decidable (lex3Le a b) := by
  unfold lex3Le; infer_instance

/-- The boolean comparison handed to the stable sort: descending by key
(`reverse=True`). -/
def keyLeB (a b : Record × (Rat × Rat × Rat)) : Bool :=
  decide (lex3Le b.2 a.2)

/-- CPython's `sorted(key=..., reverse=True)`: keys are computed once per
element, in list order (the first raised key error aborts the call), then
a stable descending sort is applied. -/
def keyedResults : List Record → Except PyErr (List (Record × (Rat × Rat × Rat)))
  | [] => .ok []
  | r :: rest =>
    match recKey r with
    | .error e => .error e
    | .ok k =>
      match keyedResults rest with
      | .error e => .error e
      | .ok ks => .ok ((r, k) :: ks)

/-- Stable descending sort of keyed records. -/
def rankKeyed (keyed : List (Record × (Rat × Rat × Rat))) : List Record :=
  (keyed.mergeSort keyLeB).map (fun p => p.1)

/-- `x.get("feasible", False)` as a boolean test on a result record. -/
def recFeasible (r : Record) : Bool :=
  match recGet r "feasible" with
  | some (.b true) => true
  | _ => false

/-- Rendering of a stored value in the comparison summary's f-string. -/
def pyValStr (lib : Lib) : PyVal → String
  | .s s => s
  | .b b => if b then "True" else "False"
  | .q q => lib.pctFormat q
  | .j (.str s) => s
  | .j v => lib.reprJ v
  | .an a => a.id

/-- `AnalysisEngine._generate_comparison_summary`. -/
def generateComparisonSummary (lib : Lib) (ranked : List Record) : String :=
  match ranked with
  | [] => "Keine Use Cases zum Vergleichen verfügbar."
  | best :: _ =>
    let feasibleCount := (ranked.filter recFeasible).length
    let total := ranked.length
    let s := "Von " ++ natRepr total ++ " analysierten Use Cases sind " ++
      natRepr feasibleCount ++ " als machbar eingestuft. "
    if feasibleCount > 0 then
      s ++ "Der vielversprechendste Use Case ist '" ++
        (match recGet best "use_case_title" with
         | some (.s t) => t
         | _ => "Unbekannt") ++ "' " ++
        "mit einem Aufwand von '" ++
        (match recGet best "effort" with
         | some p => pyValStr lib p
         | none => "unbekannt") ++ "' " ++
        "und einer Confidence von " ++
        lib.pctFormat (match recGet best "confidence" with
         | some (.q q) => q
         | _ => 0) ++ "."
    else s ++ "Alle Use Cases erfordern weitere Überlegungen vor der Umsetzung."

/-- Comparison result dictionary of `compare_use_cases`. -/
structure CompareOut where
  totalUseCases : Nat
  feasibleCount : Nat
  rankedResults : List Record
  recommendation : Option Record
  comparisonSummary : String

/-- Error message of the too-few-cases `AnalysisEngineError`. -/
def compareTooFew : String := "Mindestens 2 Use Cases für Vergleich erforderlich"

/-- `AnalysisEngine.compare_use_cases`, parameterised by the per-case
analysis environments. -/
def compareUseCases (lib : Lib) (cases : List (UseCaseLite × AnalyzeEnv)) :
    Except PyErr CompareOut :=
  if cases.length < 2 then .error (.plain compareTooFew)
  else
    let results := buildFeasResults lib cases 0
    match keyedResults results with
    | .error e => .error e
    | .ok keyed =>
      let ranked := rankKeyed keyed
      .ok ⟨cases.length, (results.filter recFeasible).length, ranked,
        ranked.head?, generateComparisonSummary lib ranked⟩

/-! ## promt_templates.py: record formatting -/

/-- Truthiness of `d.get(key)` for a text field: present and non-empty. -/
def optTruthy (o : Option String) : Bool :=
  match o with
  | some s => s ≠ ""
  | none => false

/-- The sub-fields of a company profile read by
`_format_company_profile`; flag groups are ordered dicts of booleans. -/
structure CompanyProfile where
  unternehmensname : Option String
  branche : Option String
  mitarbeiter : Option String
  umsatzklasse : Option String
  geschaeftsradius : Option String
  hauptleistungen : Option String
  digitale_systeme : List (String × Bool)
  digitalisierungsgrad : Option String
  herausforderungen : List (String × Bool)
  ki_verstaendnis : Option String
  ki_anwendungen : Option String

/-- `PromptTemplateManager._format_selected_items`. -/
def formatSelectedItems (items : List (String × Bool)) : String :=
  let selected := (items.filter (fun kv => kv.2)).map (fun kv => kv.1)
  if ¬ selected.isEmpty then pyJoin "\n" (selected.map (fun item => "- " ++ item))
  else ""

/-- The fixed `basic_info` block of `_format_company_profile`; missing
fields render as the placeholder `N/A`. -/
def companyBasicInfo (p : CompanyProfile) : String :=
  "**Unternehmen:** " ++ p.unternehmensname.getD "N/A" ++
  "\n**Branche:** " ++ p.branche.getD "N/A" ++
  "\n**Mitarbeiter:** " ++ p.mitarbeiter.getD "N/A" ++
  "\n**Umsatzklasse:** " ++ p.umsatzklasse.getD "N/A" ++
  "\n**Geschäftsradius:** " ++ p.geschaeftsradius.getD "N/A"

/-- The `sections` list assembled by `_format_company_profile`. -/
def companyProfileSections (p : CompanyProfile) : List String :=
  [companyBasicInfo p]
  ++ (if optTruthy p.hauptleistungen then
        ["**Hauptleistungen:**\n" ++ p.hauptleistungen.getD ""] else [])
  ++ (let ds := formatSelectedItems p.digitale_systeme
      if ds ≠ "" then ["**Digitale Systeme:**\n" ++ ds] else [])
  ++ ["**Digitalisierungsgrad:** " ++ p.digitalisierungsgrad.getD "N/A"]
  ++ (let ch := formatSelectedItems p.herausforderungen
      if ch ≠ "" then ["**Aktuelle Herausforderungen:**\n" ++ ch] else [])
  ++ ["**KI-Verständnis:** " ++ p.ki_verstaendnis.getD "N/A"]
  ++ (if optTruthy p.ki_anwendungen then
        ["**Bereits genutzte KI:**\n" ++ p.ki_anwendungen.getD ""] else [])

/-- `PromptTemplateManager._format_company_profile`. -/
def formatCompanyProfile (p : CompanyProfile) : String :=
  pyJoin "\n\n" (companyProfileSections p)

/-- The sub-fields of a use case read by `_format_use_case`. -/
structure UseCaseRec where
  verantwortlich : Option String
  bereich : Option String
  status : Option String
  beschreibung : Option String
  problemstellung : Option String
  zielstellung : Option String
  ki_faehigkeiten : List (String × Bool)
  strategische_vorteile : List (String × Bool)
  bewertung : List (String × String)
  entwicklungszeit : Option String

/-- The fixed `basic_info` block of `_format_use_case`. -/
def useCaseBasicInfo (u : UseCaseRec) : String :=
  "**Verantwortlich:** " ++ u.verantwortlich.getD "N/A" ++
  "\n**Bereich:** " ++ u.bereich.getD "N/A" ++
  "\n**Status:** " ++ u.status.getD "N/A"

/-- The `sections` list assembled by `_format_use_case`. -/
def useCaseSections (u : UseCaseRec) : List String :=
  [useCaseBasicInfo u]
  ++ (if optTruthy u.beschreibung then
        ["**Beschreibung:**\n" ++ u.beschreibung.getD ""] else [])
  ++ (if optTruthy u.problemstellung then
        ["**Problemstellung:**\n" ++ u.problemstellung.getD ""] else [])
  ++ (if optTruthy u.zielstellung then
        ["**Zielstellung:**\n" ++ u.zielstellung.getD ""] else [])
  ++ (let caps := formatSelectedItems u.ki_faehigkeiten
      if caps ≠ "" then ["**Benötigte KI-Fähigkeiten:**\n" ++ caps] else [])
  ++ (let adv := formatSelectedItems u.strategische_vorteile
      if adv ≠ "" then ["**Erwartete strategische Vorteile:**\n" ++ adv] else [])
  ++ (if ¬ u.bewertung.isEmpty then
        ["**Technische Bewertung:**\n" ++ pyJoin "\n"
          (u.bewertung.map (fun kv => "- " ++ kv.1 ++ ": " ++ kv.2 ++ "/5"))] else [])
  ++ (if optTruthy u.entwicklungszeit then
        ["**Geschätzte Entwicklungszeit:** " ++ u.entwicklungszeit.getD ""] else [])

/-- `PromptTemplateManager._format_use_case`. -/
def formatUseCase (u : UseCaseRec) : String :=
  pyJoin "\n\n" (useCaseSections u)

/-! ## Specification-side definitions

The following definitions are written from the wording of the
specification, not from the source; theorems compare them with the
embedded code. -/

/-- Spec wording ("returns the data of the first strategy whose result is
structurally valid"): data of the first non-raising strategy result whose
success flag is set. -/
def firstSuccessData : List (String × Except PyErr ParseResult) → Option JValue
  | [] => none
  | (_, .ok r) :: rest => if r.success then some r.data else firstSuccessData rest
  | (_, .error _) :: rest => firstSuccessData rest

/-- Spec wording ("the non-empty data of the attempted strategy result
with the highest confidence"): among non-raising results with truthy
data, the earliest one of maximal confidence. -/
def specBestNonempty (l : List (String × Except PyErr ParseResult)) :
    Option ParseResult :=
  l.foldl
    (fun best nr =>
      match nr.2 with
      | .ok r =>
        if jTruthy r.data then
          match best with
          | none => some r
          | some b => if r.confidence > b.confidence then some r else some b
        else best
      | .error _ => best)
    none

/-- Spec wording ("the accumulated error messages"): error strings of the
attempted strategies in order, raised strategies contributing their
exception text. -/
def specErrors (l : List (String × Except PyErr ParseResult)) : List String :=
  l.foldl
    (fun acc nr =>
      match nr.2 with
      | .error e => acc ++ [nr.1 ++ ": " ++ e.msg]
      | .ok r => if r.success then acc else acc ++ r.errors)
    []

/-- The ordered strategy chain exactly as the specification words it:
first structurally-valid winner, otherwise best-by-confidence non-empty
data, otherwise the textual fallback. -/
def chainSpecC2 (l : List (String × Except PyErr ParseResult)) (raw : String) :
    JValue :=
  match firstSuccessData l with
  | some d => d
  | none =>
    match specBestNonempty l with
    | some b => b.data
    | none => createTextFallback raw (specErrors l)

/-- Is a value outside a closed (lower-case) vocabulary?  A non-string
value is outside every vocabulary. -/
def jValOutside (v : JValue) (vocab : List String) : Bool :=
  match v with
  | .str s => ¬ vocab.contains (pyLower s)
  | _ => true

/-- Spec wording of the quick-feasibility quality factor: multiply by 0.7
when the feasibility value is outside the closed vocabulary and by 0.8
when the recommendation is outside its closed vocabulary. -/
def specQuickFactor (kvs : List (String × JValue)) : Rat :=
  (if jValOutside (objGetD kvs "machbarkeit" (.str "")) validFeasibility then 7 / 10 else 1) *
  (if jValOutside (objGetD kvs "empfehlung" (.str "")) validRecommendations then 8 / 10 else 1)

/-- Spec wording of structural scoring: (number of required fields
present) / (number of required fields), times the format-specific quality
factor. -/
def specC3Confidence (fmt : String) (kvs : List (String × JValue)) : Rat :=
  (((expectedFields fmt).countP (fun f => objMem kvs f) : Rat) /
    ((expectedFields fmt).length : Rat)) *
  (if fmt = "structured_json" then validateAnalysisStructure kvs
   else if fmt = "quick_json" then specQuickFactor kvs
   else 1)

/-- The scoring contract of the claim, as a predicate on the outcome of
`_validate_structure`: validation returns (rather than raises), its
confidence is (present required fields)/(required fields) times the
format-specific quality factor, and validity is exactly confidence above
0.5 with no recorded hard error. -/
def scoringSpecHolds (fmt : String) (kvs : List (String × JValue)) :
    Except PyErr ValidationOut → Prop
  | .error _ => False
  | .ok v =>
    v.confidence = specC3Confidence fmt kvs ∧
    (v.valid = true ↔ v.confidence > 1 / 2 ∧ v.errors = [])

/-- Spec wording of the effort score used by the ranking: the fixed
mapping gering=4, mittel=3, hoch=2, "sehr hoch"=1, any other effort
string 2.5; a missing effort key falls back to the "hoch" default. -/
def specEffortScore (r : Record) : Rat :=
  match recGet r "effort" with
  | none => effortMapping (pyLower "hoch")
  | some (.j (.str s)) => effortMapping (pyLower s)
  | some (.s s) => effortMapping (pyLower s)
  | some _ => 5 / 2

/-- Spec wording of the ranking tuple (feasible flag, confidence, effort
score), the flag rendered 0/1. -/
def specKey (r : Record) : Rat × Rat × Rat :=
  (if recFeasible r then 1 else 0,
   (match recGet r "confidence" with | some (.q q) => q | _ => 0),
   specEffortScore r)

/-- The ranking contract of the claim, as a predicate on the outcome of
`compare_use_cases`: when a comparison result is returned at all, the
input had at least two cases, the ranking is a permutation of the
per-case feasibility records, it is sorted descending by the claimed
(feasible, confidence, effort-score) tuple, and the top recommendation
carries a maximal tuple.  (A raised `AttributeError` from a non-string
effort value returns no ranking.) -/
def rankingSpecHolds (lib : Lib) (cases_ : List (UseCaseLite × AnalyzeEnv)) :
    Except PyErr CompareOut → Prop
  | .error _ => True
  | .ok out =>
    2 ≤ cases_.length ∧
    out.rankedResults.Perm (buildFeasResults lib cases_ 0) ∧
    out.rankedResults.Pairwise (fun a b => lex3Le (specKey b) (specKey a)) ∧
    (∀ top, out.recommendation = some top →
      top ∈ out.rankedResults ∧
      ∀ r ∈ out.rankedResults, lex3Le (specKey r) (specKey top))

/-- The confidence of a strategy outcome lies in the unit interval (a
raised strategy produced no confidence). -/
def strategyConfIn01 : Except PyErr ParseResult → Prop
  | .error _ => True
  | .ok r => 0 ≤ r.confidence ∧ r.confidence ≤ 1

/-- The overall score of the orchestrator lies in the unit interval when
it is produced at all. -/
def calcConfIn01 : Except PyErr Rat → Prop
  | .error _ => True
  | .ok q => 0 ≤ q ∧ q ≤ 1

/-- A library instantiation for concrete witnesses: the decoder rejects
everything and the regex engine finds nothing. -/
def trivLib : Lib :=
  ⟨fun _ => none, fun _ _ => [], fun _ s => s, fun _ => "0.0%", fun _ => ""⟩

/-- The attempt schedule used by the retry witness: a timeout, then a
successful decode. -/
def witnessAttempts : Nat → Attempt :=
  fun n => if n = 0 then .timeout else .ok .null

/-- A company profile with every sub-field missing. -/
def emptyCompany : CompanyProfile :=
  ⟨none, none, none, none, none, none, [], none, [], none, none⟩

/-- Concrete company profile for the formatting witness: missing name,
one non-empty optional field, one flag group with no true flag. -/
def witCompany : CompanyProfile :=
  ⟨none, some "Elektro", none, none, none, some "Installationen",
   [("ERP", false)], none, [], none, none⟩

/-- Concrete use case for the formatting witness. -/
def witUseCase : UseCaseRec :=
  ⟨none, none, none, some "KI-Angebote", none, none, [], [], [], none⟩

/-- Concrete analysis environment for the comparison witness: the data
validation fails, so each feasibility probe returns its error record. -/
def witEnv : AnalyzeEnv :=
  ⟨false, "boom", none, Except.error (.lm "down"), "a1"⟩

/-! ## Lemmas about the model client -/

theorem classify_of_transient (a : Attempt) (h : a.transient = true) :
    classify a = .transientFail := by
  cases a with
  | ok r => simp [Attempt.transient] at h
  | http code body detail =>
    simp [Attempt.transient, decide_eq_true_eq] at h
    simp [classify, h.2]
  | timeout => rfl
  | netErr m => rfl

theorem genLoop_ok (cfg : LMConfig) (attempts : Nat → Attempt) :
    ∀ (k remaining i : Nat) (last : Option String) (sleeps : List Nat)
      (used : Nat) (r : JValue),
      k < remaining →
      (∀ j, j < k → (attempts (i + j)).transient = true) →
      attempts (i + k) = .ok r →
      genLoop cfg attempts remaining i last sleeps used =
        ⟨.ok r, sleeps ++ (List.range' i k).map (fun j => 2 ^ j), used + k + 1⟩ := by
  intro k
  induction k with
  | zero =>
    intro remaining i last sleeps used r hk hT hok
    obtain ⟨m, rfl⟩ : ∃ m, remaining = m + 1 := ⟨remaining - 1, by omega⟩
    rw [Nat.add_zero] at hok
    simp [genLoop, hok, classify]
  | succ k ih =>
    intro remaining i last sleeps used r hk hT hok
    obtain ⟨m, rfl⟩ : ∃ m, remaining = m + 1 := ⟨remaining - 1, by omega⟩
    have ht0 : (attempts i).transient = true := by simpa using hT 0 (by omega)
    have hm : ¬ (m = 0) := by omega
    simp only [genLoop, classify_of_transient _ ht0, hm, if_false]
    rw [ih m (i + 1) (some (transientMsg cfg (attempts i))) (sleeps ++ [2 ^ i])
      (used + 1) r (by omega)
      (fun j hj => by
        have := hT (j + 1) (by omega)
        simpa [Nat.add_assoc, Nat.add_comm 1 j] using this)
      (by simpa [Nat.add_assoc, Nat.add_comm 1 k] using hok)]
    rw [List.range'_succ]
    simp [Nat.add_assoc, Nat.add_comm 1 k]

theorem genLoop_422 (cfg : LMConfig) (attempts : Nat → Attempt) :
    ∀ (k remaining i : Nat) (last : Option String) (sleeps : List Nat)
      (used : Nat) (body : String) (detail : Option String),
      k < remaining →
      (∀ j, j < k → (attempts (i + j)).transient = true) →
      attempts (i + k) = .http 422 body detail →
      genLoop cfg attempts remaining i last sleeps used =
        ⟨.error ("Validierungsfehler: " ++ detail.getD "Validation Error"),
         sleeps ++ (List.range' i k).map (fun j => 2 ^ j), used + k + 1⟩ := by
  intro k
  induction k with
  | zero =>
    intro remaining i last sleeps used body detail hk hT hres
    obtain ⟨m, rfl⟩ : ∃ m, remaining = m + 1 := ⟨remaining - 1, by omega⟩
    rw [Nat.add_zero] at hres
    simp [genLoop, hres, classify]
  | succ k ih =>
    intro remaining i last sleeps used body detail hk hT hres
    obtain ⟨m, rfl⟩ : ∃ m, remaining = m + 1 := ⟨remaining - 1, by omega⟩
    have ht0 : (attempts i).transient = true := by simpa using hT 0 (by omega)
    have hm : ¬ (m = 0) := by omega
    simp only [genLoop, classify_of_transient _ ht0, hm, if_false]
    rw [ih m (i + 1) (some (transientMsg cfg (attempts i))) (sleeps ++ [2 ^ i])
      (used + 1) body detail (by omega)
      (fun j hj => by
        have := hT (j + 1) (by omega)
        simpa [Nat.add_assoc, Nat.add_comm 1 j] using this)
      (by simpa [Nat.add_assoc, Nat.add_comm 1 k] using hres)]
    rw [List.range'_succ]
    simp [Nat.add_assoc, Nat.add_comm 1 k]

theorem genLoop_exhaust (cfg : LMConfig) (attempts : Nat → Attempt) :
    ∀ (remaining i : Nat) (last : Option String) (sleeps : List Nat) (used : Nat),
      1 ≤ remaining →
      (∀ j, j < remaining → (attempts (i + j)).transient = true) →
      genLoop cfg attempts remaining i last sleeps used =
        ⟨.error (transientMsg cfg (attempts (i + remaining - 1))),
         sleeps ++ (List.range' i (remaining - 1)).map (fun j => 2 ^ j),
         used + remaining⟩ := by
  intro remaining
  induction remaining with
  | zero => intro i last sleeps used h; omega
  | succ m ih =>
    intro i last sleeps used _ hT
    have ht0 : (attempts i).transient = true := by simpa using hT 0 (by omega)
    by_cases hm : m = 0
    · subst hm
      simp [genLoop, classify_of_transient _ ht0]
    · simp only [genLoop, classify_of_transient _ ht0, hm, if_false]
      rw [ih (i + 1) (some (transientMsg cfg (attempts i))) (sleeps ++ [2 ^ i])
        (used + 1) (by omega)
        (fun j hj => by
          have := hT (j + 1) (by omega)
          simpa [Nat.add_assoc, Nat.add_comm 1 j] using this)]
      obtain ⟨m', rfl⟩ : ∃ m', m = m' + 1 := ⟨m - 1, by omega⟩
      have h1 : i + 1 + (m' + 1) - 1 = i + (m' + 1 + 1) - 1 := by omega
      have h2 : m' + 1 + 1 - 1 = m' + 1 := by omega
      have h3 : m' + 1 - 1 = m' := by omega
      rw [h1, h3, h2, List.range'_succ]
      simp [Nat.add_assoc]
      omega

/-- C7: the retry behaviour of `generate_completion`, stated in the three
reachable shapes: (a) success after `k` leading transient failures, which
has slept `2^0 .. 2^(k-1)` and used `k+1` attempts; (b) an HTTP 422
validation failure aborts immediately in the same way, with no further
retry; (c) when all configured attempts fail transiently the call raises
a client error carrying the last observed failure reason, after
`maxRetries` attempts and sleeps `2^0 .. 2^(maxRetries-2)`. -/
theorem generate_completion_retry_policy (cfg : LMConfig) (attempts : Nat → Attempt) :
    (∀ k r, k < cfg.maxRetries →
      (∀ j, j < k → (attempts j).transient = true) →
      attempts k = .ok r →
      generate_completion cfg attempts =
        ⟨.ok r, (List.range' 0 k).map (fun j => 2 ^ j), k + 1⟩) ∧
    (∀ k body detail, k < cfg.maxRetries →
      (∀ j, j < k → (attempts j).transient = true) →
      attempts k = .http 422 body detail →
      generate_completion cfg attempts =
        ⟨.error ("Validierungsfehler: " ++ detail.getD "Validation Error"),
         (List.range' 0 k).map (fun j => 2 ^ j), k + 1⟩) ∧
    (1 ≤ cfg.maxRetries →
      (∀ j, j < cfg.maxRetries → (attempts j).transient = true) →
      generate_completion cfg attempts =
        ⟨.error (transientMsg cfg (attempts (cfg.maxRetries - 1))),
         (List.range' 0 (cfg.maxRetries - 1)).map (fun j => 2 ^ j),
         cfg.maxRetries⟩) := by
  refine ⟨?_, ?_, ?_⟩
  · intro k r hk hT hok
    have := genLoop_ok cfg attempts k cfg.maxRetries 0 none [] 0 r hk
      (fun j hj => by simpa using hT j hj) (by simpa using hok)
    simpa [generate_completion] using this
  · intro k body detail hk hT hres
    have := genLoop_422 cfg attempts k cfg.maxRetries 0 none [] 0 body detail hk
      (fun j hj => by simpa using hT j hj) (by simpa using hres)
    simpa [generate_completion] using this
  · intro h1 hT
    have := genLoop_exhaust cfg attempts cfg.maxRetries 0 none [] 0 h1
      (fun j hj => by simpa using hT j hj)
    simpa [generate_completion] using this

/-- C7 witness: with three configured attempts, a timeout on the first
attempt and a success on the second, the call returns the decoded result
after one back-off sleep of `2^0` and two attempts. -/
theorem generate_completion_retry_policy_witness :
    generate_completion ⟨3, 120⟩ witnessAttempts =
      ⟨.ok .null, (List.range' 0 1).map (fun j => 2 ^ j), 2⟩ :=
  (generate_completion_retry_policy ⟨3, 120⟩ witnessAttempts).1 1 .null
    (by decide) (by decide) rfl

/-! ## Lemmas about character-list prefixes -/

theorem pfxL_eq_take : ∀ (a b : List Char), pfxL a b = true ↔ b.take a.length = a := by
  intro a
  induction a with
  | nil => intro b; simp [pfxL]
  | cons x xs ih =>
    intro b
    cases b with
    | nil => simp [pfxL]
    | cons y ys =>
      simp only [pfxL, List.length_cons, List.take_succ_cons, List.cons.injEq,
        Bool.and_eq_true, decide_eq_true_eq, ih ys]
      constructor
      · rintro ⟨rfl, h⟩; exact ⟨rfl, h⟩
      · rintro ⟨rfl, h⟩; exact ⟨rfl, h⟩

theorem pfxL_append_lit_false (pre lit rest : List Char) (n : Nat)
    (h1 : n ≤ pre.length) (h2 : n ≤ lit.length)
    (hne : pre.take n ≠ lit.take n) : pfxL pre (lit ++ rest) = false := by
  by_contra hc
  rw [Bool.not_eq_false, pfxL_eq_take] at hc
  apply hne
  calc pre.take n = (((lit ++ rest).take pre.length).take n) := by rw [hc]
    _ = (lit ++ rest).take (min n pre.length) := by rw [List.take_take]
    _ = (lit ++ rest).take n := by rw [min_eq_left h1]
    _ = lit.take n := List.take_append_of_le_length h2

theorem pfxL_self_append : ∀ (a b : List Char), pfxL a (a ++ b) = true := by
  intro a b
  induction a with
  | nil => simp [pfxL]
  | cons x xs ih => simp [pfxL, ih]

theorem pfxL_append_append (l1 l2 rest p : List Char) (hp : p = l1 ++ l2) :
    pfxL p (l1 ++ (l2 ++ rest)) = true := by
  subst hp
  rw [← List.append_assoc]
  exact pfxL_self_append _ _

theorem mem_ite_cases {c : Prop} [Decidable c] {x s : String}
    (h : s ∈ (if c then [x] else ([] : List String))) : c ∧ s = x := by
  split at h
  · next hc => exact ⟨hc, by simpa using h⟩
  · simp at h

/-- C9 counterexample: the claim says a sub-field missing from the input
record is silently omitted and never rendered as a placeholder, but the
company profile with every sub-field missing renders the placeholder
block `**Unternehmen:** N/A`. -/
theorem company_profile_renders_missing_name_placeholder :
    emptyCompany.unternehmensname = none ∧
    pyIn "**Unternehmen:** N/A" (formatCompanyProfile emptyCompany) = true :=
  ⟨rfl, by decide⟩

/-- C9 (amended): flag groups expand to bullet lists of exactly the true
flags, and the conditional sections (services, flag groups, description)
are omitted when their field is missing or empty and rendered when
non-empty; but the fixed header fields are always rendered, with the
placeholder `N/A` substituted for a missing value. -/
theorem formatting_omission_and_placeholders :
    (∀ items : List (String × Bool),
      formatSelectedItems items =
        (if (items.filter (fun kv => kv.2)).isEmpty then ""
         else pyJoin "\n" ((items.filter (fun kv => kv.2)).map (fun kv => "- " ++ kv.1)))) ∧
    (∀ p : CompanyProfile, optTruthy p.hauptleistungen = false →
      ∀ s ∈ companyProfileSections p, pfxL "**Hauptleistungen:**".data s.data = false) ∧
    (∀ (p : CompanyProfile) (h : String), p.hauptleistungen = some h → h ≠ "" →
      ("**Hauptleistungen:**\n" ++ h) ∈ companyProfileSections p) ∧
    (∀ p : CompanyProfile, (p.digitale_systeme.filter (fun kv => kv.2)) = [] →
      ∀ s ∈ companyProfileSections p, pfxL "**Digitale Systeme:**".data s.data = false) ∧
    (∀ p : CompanyProfile, p.unternehmensname = none →
      pfxL "**Unternehmen:** N/A".data (companyBasicInfo p).data = true) ∧
    (∀ u : UseCaseRec, optTruthy u.beschreibung = false →
      ∀ s ∈ useCaseSections u, pfxL "**Beschreibung:**".data s.data = false) ∧
    (∀ (u : UseCaseRec) (b : String), u.beschreibung = some b → b ≠ "" →
      ("**Beschreibung:**\n" ++ b) ∈ useCaseSections u) ∧
    (∀ u : UseCaseRec, u.verantwortlich = none →
      pfxL "**Verantwortlich:** N/A".data (useCaseBasicInfo u).data = true) := by
  refine ⟨?_, ?_, ?_, ?_, ?_, ?_, ?_, ?_⟩
  · intro items
    by_cases h : (items.filter (fun kv => kv.2)) = []
    · simp [formatSelectedItems, h]
    · simp [formatSelectedItems, h, List.isEmpty_iff, List.map_map, Function.comp_def]
  · intro p hp s hs
    simp only [companyProfileSections, List.mem_append, List.mem_singleton] at hs
    rcases hs with ((((((h | h) | h) | h) | h) | h) | h)
    · subst h
      simp only [companyBasicInfo, String.data_append, List.append_assoc]
      exact pfxL_append_lit_false _ _ _ 10 (by decide) (by decide) (by decide)
    · rw [hp] at h; simp at h
    · rcases mem_ite_cases h with ⟨-, rfl⟩
      simp only [String.data_append]
      exact pfxL_append_lit_false _ _ _ 10 (by decide) (by decide) (by decide)
    · subst h
      simp only [String.data_append]
      exact pfxL_append_lit_false _ _ _ 10 (by decide) (by decide) (by decide)
    · rcases mem_ite_cases h with ⟨-, rfl⟩
      simp only [String.data_append]
      exact pfxL_append_lit_false _ _ _ 10 (by decide) (by decide) (by decide)
    · subst h
      simp only [String.data_append]
      exact pfxL_append_lit_false _ _ _ 10 (by decide) (by decide) (by decide)
    · rcases mem_ite_cases h with ⟨-, rfl⟩
      simp only [String.data_append]
      exact pfxL_append_lit_false _ _ _ 10 (by decide) (by decide) (by decide)
  · intro p h hh hne
    simp [companyProfileSections, optTruthy, hh, hne]
  · intro p hp s hs
    have hds : formatSelectedItems p.digitale_systeme = "" := by
      simp [formatSelectedItems, hp]
    simp only [companyProfileSections, hds, List.mem_append, List.mem_singleton] at hs
    rcases hs with ((((((h | h) | h) | h) | h) | h) | h)
    · subst h
      simp only [companyBasicInfo, String.data_append, List.append_assoc]
      exact pfxL_append_lit_false _ _ _ 10 (by decide) (by decide) (by decide)
    · rcases mem_ite_cases h with ⟨-, rfl⟩
      simp only [String.data_append]
      exact pfxL_append_lit_false _ _ _ 10 (by decide) (by decide) (by decide)
    · simp at h
    · subst h
      simp only [String.data_append]
      exact pfxL_append_lit_false _ _ _ 10 (by decide) (by decide) (by decide)
    · rcases mem_ite_cases h with ⟨-, rfl⟩
      simp only [String.data_append]
      exact pfxL_append_lit_false _ _ _ 10 (by decide) (by decide) (by decide)
    · subst h
      simp only [String.data_append]
      exact pfxL_append_lit_false _ _ _ 10 (by decide) (by decide) (by decide)
    · rcases mem_ite_cases h with ⟨-, rfl⟩
      simp only [String.data_append]
      exact pfxL_append_lit_false _ _ _ 10 (by decide) (by decide) (by decide)
  · intro p hp
    simp only [companyBasicInfo, hp, Option.getD_none, String.data_append,
      List.append_assoc]
    exact pfxL_append_append _ _ _ _ (by decide)
  · intro u hu s hs
    simp only [useCaseSections, List.mem_append, List.mem_singleton] at hs
    rcases hs with (((((((h | h) | h) | h) | h) | h) | h) | h)
    · subst h
      simp only [useCaseBasicInfo, String.data_append, List.append_assoc]
      exact pfxL_append_lit_false _ _ _ 10 (by decide) (by decide) (by decide)
    · rw [hu] at h; simp at h
    · rcases mem_ite_cases h with ⟨-, rfl⟩
      simp only [String.data_append]
      exact pfxL_append_lit_false _ _ _ 10 (by decide) (by decide) (by decide)
    · rcases mem_ite_cases h with ⟨-, rfl⟩
      simp only [String.data_append]
      exact pfxL_append_lit_false _ _ _ 10 (by decide) (by decide) (by decide)
    · rcases mem_ite_cases h with ⟨-, rfl⟩
      simp only [String.data_append]
      exact pfxL_append_lit_false _ _ _ 10 (by decide) (by decide) (by decide)
    · rcases mem_ite_cases h with ⟨-, rfl⟩
      simp only [String.data_append]
      exact pfxL_append_lit_false _ _ _ 10 (by decide) (by decide) (by decide)
    · rcases mem_ite_cases h with ⟨-, rfl⟩
      simp only [String.data_append]
      exact pfxL_append_lit_false _ _ _ 10 (by decide) (by decide) (by decide)
    · rcases mem_ite_cases h with ⟨-, rfl⟩
      simp only [String.data_append]
      exact pfxL_append_lit_false _ _ _ 10 (by decide) (by decide) (by decide)
  · intro u b hb hne
    simp [useCaseSections, optTruthy, hb, hne]
  · intro u hu
    simp only [useCaseBasicInfo, hu, Option.getD_none, String.data_append,
      List.append_assoc]
    exact pfxL_append_append _ _ _ _ (by decide)

/-- C9 witness: on a concrete profile and use case, the non-empty
services field and description are rendered, and the missing name and
missing responsible person render as `N/A`. -/
theorem formatting_omission_and_placeholders_witness :
    ("**Hauptleistungen:**\n" ++ "Installationen") ∈ companyProfileSections witCompany ∧
    pfxL "**Unternehmen:** N/A".data (companyBasicInfo witCompany).data = true ∧
    ("**Beschreibung:**\n" ++ "KI-Angebote") ∈ useCaseSections witUseCase ∧
    pfxL "**Verantwortlich:** N/A".data (useCaseBasicInfo witUseCase).data = true :=
  ⟨(formatting_omission_and_placeholders).2.2.1 witCompany "Installationen" rfl (by decide),
   (formatting_omission_and_placeholders).2.2.2.2.1 witCompany rfl,
   (formatting_omission_and_placeholders).2.2.2.2.2.2.1 witUseCase "KI-Angebote" rfl (by decide),
   (formatting_omission_and_placeholders).2.2.2.2.2.2.2 witUseCase rfl⟩

/-! ## Lemmas about structural validation -/

theorem validateFeasibility_of_strings (kvs : List (String × JValue))
    (feas rcm : String)
    (hf : objGetD kvs "machbarkeit" (.str "") = .str feas)
    (hr : objGetD kvs "empfehlung" (.str "") = .str rcm) :
    validateFeasibilityStructure kvs = .ok (specQuickFactor kvs) := by
  simp only [validateFeasibilityStructure, hf, hr, jLowerStr,
    specQuickFactor, jValOutside]
  by_cases c1 : validFeasibility.contains (pyLower feas) <;>
    by_cases c2 : validRecommendations.contains (pyLower rcm) <;>
    simp [c1, c2]

/-- C3 counterexample: at the parsed mapping with a numeric feasibility
value, `_validate_structure` for the quick format raises an
`AttributeError` from `.lower()` instead of computing any confidence, so
the claimed scoring rule does not hold for every parsed mapping. -/
theorem validate_structure_raises_on_nonstring_value :
    validateStructure (.obj [("machbarkeit", JValue.num 1)]) "quick_json" =
      .error (.plain "'int' object has no attribute 'lower'") := rfl

/-- C3 (amended): for every parsed mapping whose quick-format enumerated
values (feasibility, recommendation) are strings when present — otherwise
the validation raises an `AttributeError` — confidence equals (required
fields present)/(required fields) times the format quality factor (0.7
and 0.8 penalties for out-of-vocabulary quick values), and the candidate
is valid exactly when that confidence exceeds 0.5 and no hard structural
error was recorded. -/
theorem validate_structure_scoring (kvs : List (String × JValue)) (fmt : String)
    (hfmt : fmt ∈ ["structured_json", "quick_json", "roi_json", "implementation_json"])
    (hq : fmt = "quick_json" →
      (∃ s, objGetD kvs "machbarkeit" (.str "") = .str s) ∧
      (∃ s, objGetD kvs "empfehlung" (.str "") = .str s)) :
    scoringSpecHolds fmt kvs (validateStructure (.obj kvs) fmt) := by
  fin_cases hfmt
  · -- structured_json
    simp only [validateStructure, expectedFields, reduceIte]
    simp only [scoringSpecHolds, specC3Confidence, expectedFields,
      List.countP_eq_length_filter, reduceIte]
    exact ⟨rfl, by simp [Bool.and_eq_true, decide_eq_true_eq, List.isEmpty_iff]⟩
  · -- quick_json
    obtain ⟨⟨feas, hf⟩, ⟨rcm, hr⟩⟩ := hq rfl
    simp only [validateStructure, expectedFields, reduceIte]
    rw [validateFeasibility_of_strings kvs feas rcm hf hr]
    simp only [scoringSpecHolds, specC3Confidence, expectedFields,
      List.countP_eq_length_filter, reduceIte]
    exact ⟨rfl, by simp [Bool.and_eq_true, decide_eq_true_eq, List.isEmpty_iff]⟩
  · -- roi_json
    simp only [validateStructure, expectedFields, reduceIte]
    simp only [scoringSpecHolds, specC3Confidence, expectedFields,
      List.countP_eq_length_filter, reduceIte]
    refine ⟨(mul_one _).symm, ?_⟩
    simp [Bool.and_eq_true, decide_eq_true_eq, List.isEmpty_iff]
  · -- implementation_json
    simp only [validateStructure, expectedFields, reduceIte]
    simp only [scoringSpecHolds, specC3Confidence, expectedFields,
      List.countP_eq_length_filter, reduceIte]
    refine ⟨(mul_one _).symm, ?_⟩
    simp [Bool.and_eq_true, decide_eq_true_eq, List.isEmpty_iff]

/-- C3 witness: the scoring contract holds at a concrete quick-format
mapping whose feasibility value is the string "gut". -/
theorem validate_structure_scoring_witness :
    scoringSpecHolds "quick_json" [("machbarkeit", JValue.str "gut")]
      (validateStructure (.obj [("machbarkeit", JValue.str "gut")]) "quick_json") :=
  validate_structure_scoring [("machbarkeit", JValue.str "gut")] "quick_json"
    (by decide) (fun _ => ⟨⟨"gut", rfl⟩, ⟨"", rfl⟩⟩)

/-! ## Lemmas about the strategy chain -/

theorem parseFallbackText_always_succeeds (s fmt : String) :
    (parseFallbackText s fmt).success = true ∧
    jTruthy (parseFallbackText s fmt).data = true := by
  unfold parseFallbackText
  by_cases h1 : fmt = "quick_json"
  · simp [h1, jTruthy, extractFeasibilityFromText]
  · by_cases h2 : fmt = "structured_json"
    · simp [h1, h2, jTruthy, extractAnalysisFromText]
    · simp [h1, h2, jTruthy]

theorem runStrategyList_firstSuccess :
    ∀ (l : List (String × Except PyErr ParseResult)) (st : LoopState) (d : JValue),
      firstSuccessData l = some d → runStrategyList l st = .inl d := by
  intro l
  induction l with
  | nil => intro st d h; simp [firstSuccessData] at h
  | cons nr rest ih =>
    intro st d h
    obtain ⟨name, res⟩ := nr
    cases res with
    | error e =>
      simp only [firstSuccessData] at h
      simp only [runStrategyList]
      exact ih _ _ h
    | ok r =>
      by_cases hs : r.success = true
      · simp only [firstSuccessData, hs, if_true] at h
        simp only [runStrategyList, hs, if_true]
        exact congrArg Sum.inl (Option.some.inj h)
      · simp only [firstSuccessData, hs, if_false] at h
        simp only [runStrategyList, hs, if_false]
        exact ih _ _ h

theorem firstSuccessData_of_last :
    ∀ (l : List (String × Except PyErr ParseResult)) (name : String)
      (r : ParseResult), r.success = true →
      (firstSuccessData (l ++ [(name, .ok r)])).isSome = true := by
  intro l
  induction l with
  | nil => intro name r hr; simp [firstSuccessData, hr]
  | cons nr rest ih =>
    intro name r hr
    obtain ⟨n2, res⟩ := nr
    cases res with
    | error e => simpa [firstSuccessData] using ih name r hr
    | ok r2 =>
      by_cases hs : r2.success = true
      · simp [firstSuccessData, hs]
      · simpa [firstSuccessData, hs] using ih name r hr

theorem firstSuccessData_mem :
    ∀ (l : List (String × Except PyErr ParseResult)) (d : JValue),
      firstSuccessData l = some d →
      ∃ nr ∈ l, ∃ r, nr.2 = .ok r ∧ r.success = true ∧ r.data = d := by
  intro l
  induction l with
  | nil => intro d h; simp [firstSuccessData] at h
  | cons nr rest ih =>
    intro d h
    obtain ⟨name, res⟩ := nr
    cases res with
    | error e =>
      simp only [firstSuccessData] at h
      obtain ⟨nr2, hm, r, hr⟩ := ih d h
      exact ⟨nr2, by simp [hm], r, hr⟩
    | ok r =>
      by_cases hs : r.success = true
      · simp only [firstSuccessData, hs, if_true] at h
        exact ⟨(name, .ok r), by simp, r, rfl, hs, Option.some.inj h⟩
      · simp only [firstSuccessData, hs, if_false] at h
        obtain ⟨nr2, hm, r2, hr⟩ := ih d h
        exact ⟨nr2, by simp [hm], r2, hr⟩

theorem valid_implies_obj (data : JValue) (fmt : String) (v : ValidationOut)
    (h : validateStructure data fmt = .ok v) (hv : v.valid = true) :
    ∃ kvs, data = .obj kvs := by
  cases data with
  | obj kvs => exact ⟨kvs, rfl⟩
  | null => rw [show validateStructure .null fmt = .ok ⟨false, 0, ["Response ist kein Dictionary"], []⟩ from rfl] at h; cases Except.ok.inj h; simp at hv
  | bool b => rw [show validateStructure (.bool b) fmt = .ok ⟨false, 0, ["Response ist kein Dictionary"], []⟩ from rfl] at h; cases Except.ok.inj h; simp at hv
  | num q => rw [show validateStructure (.num q) fmt = .ok ⟨false, 0, ["Response ist kein Dictionary"], []⟩ from rfl] at h; cases Except.ok.inj h; simp at hv
  | str s => rw [show validateStructure (.str s) fmt = .ok ⟨false, 0, ["Response ist kein Dictionary"], []⟩ from rfl] at h; cases Except.ok.inj h; simp at hv
  | arr xs => rw [show validateStructure (.arr xs) fmt = .ok ⟨false, 0, ["Response ist kein Dictionary"], []⟩ from rfl] at h; cases Except.ok.inj h; simp at hv

theorem parseCleanJson_success_obj (lib : Lib) (s fmt : String) (r : ParseResult)
    (h : parseCleanJson lib s fmt = .ok r) (hs : r.success = true) :
    ∃ kvs, r.data = .obj kvs := by
  unfold parseCleanJson at h
  cases hload : lib.jsonLoads (pyStrip s) with
  | none => rw [hload] at h; cases Except.ok.inj h; simp at hs
  | some data =>
    rw [hload] at h
    simp only [] at h
    cases hval : validateStructure data fmt with
    | error e => rw [hval] at h; cases h
    | ok v =>
      rw [hval] at h
      cases Except.ok.inj h
      exact valid_implies_obj data fmt v hval hs

theorem mdScanMatches_success_obj (lib : Lib) (fmt : String) :
    ∀ (ms : List String) (r : ParseResult),
      mdScanMatches lib fmt ms = .ok (some r) → r.success = true →
      ∃ kvs, r.data = .obj kvs := by
  intro ms
  induction ms with
  | nil => intro r h hs; simp [mdScanMatches] at h
  | cons m rest ih =>
    intro r h hs
    unfold mdScanMatches at h
    cases hload : lib.jsonLoads (cleanJsonString lib m) with
    | none => rw [hload] at h; exact ih r h hs
    | some data =>
      rw [hload] at h
      simp only [] at h
      cases hval : validateStructure data fmt with
      | error e => rw [hval] at h; cases h
      | ok v =>
        rw [hval] at h
        simp only [] at h
        by_cases hc : (v.valid = true ∨ v.confidence > 1 / 2)
        · rw [if_pos hc] at h
          cases Except.ok.inj h
          exact valid_implies_obj data fmt v hval hs
        · rw [if_neg hc] at h
          exact ih r h hs

theorem mdScanPatterns_success_obj (lib : Lib) (s fmt : String) :
    ∀ (pats : List Nat) (r : ParseResult),
      mdScanPatterns lib s fmt pats = .ok (some r) → r.success = true →
      ∃ kvs, r.data = .obj kvs := by
  intro pats
  induction pats with
  | nil => intro r h hs; simp [mdScanPatterns] at h
  | cons i rest ih =>
    intro r h hs
    unfold mdScanPatterns at h
    cases hm : mdScanMatches lib fmt (lib.findall i s) with
    | error e => rw [hm] at h; cases h
    | ok o =>
      rw [hm] at h
      cases o with
      | some r2 =>
        cases Except.ok.inj h
        exact mdScanMatches_success_obj lib fmt _ r hm hs
      | none => exact ih r h hs

theorem parseMarkdownJson_success_obj (lib : Lib) (s fmt : String) (r : ParseResult)
    (h : parseMarkdownJson lib s fmt = .ok r) (hs : r.success = true) :
    ∃ kvs, r.data = .obj kvs := by
  unfold parseMarkdownJson at h
  cases hp : mdScanPatterns lib s fmt [0, 1, 2, 3] with
  | error e => rw [hp] at h; cases h
  | ok o =>
    rw [hp] at h
    cases o with
    | some r2 =>
      cases Except.ok.inj h
      exact mdScanPatterns_success_obj lib s fmt _ r hp hs
    | none => cases Except.ok.inj h; simp at hs

theorem mixedScan_success_obj (lib : Lib) (fmt : String) :
    ∀ (cands : List String) (best : Option ParseResult) (r : ParseResult),
      (∀ b, best = some b → b.success = true → ∃ kvs, b.data = .obj kvs) →
      mixedScan lib fmt cands best = .ok (some r) → r.success = true →
      ∃ kvs, r.data = .obj kvs := by
  intro cands
  induction cands with
  | nil =>
    intro best r hinv h hs
    simp only [mixedScan] at h
    exact hinv r (Except.ok.inj h) hs
  | cons c rest ih =>
    intro best r hinv h hs
    unfold mixedScan at h
    cases hload : lib.jsonLoads (cleanJsonString lib c) with
    | none => rw [hload] at h; exact ih best r hinv h hs
    | some data =>
      rw [hload] at h
      simp only [] at h
      cases hval : validateStructure data fmt with
      | error e => rw [hval] at h; cases h
      | ok v =>
        rw [hval] at h
        simp only [] at h
        refine ih _ r ?_ h hs
        intro b hb hbs
        cases best with
        | none =>
          simp only at hb
          cases Option.some.inj hb
          exact valid_implies_obj data fmt v hval hbs
        | some b0 =>
          simp only at hb
          by_cases hc : v.confidence > b0.confidence
          · rw [if_pos hc] at hb
            cases Option.some.inj hb
            exact valid_implies_obj data fmt v hval hbs
          · rw [if_neg hc] at hb
            exact hinv b hb hbs

theorem parseMixedContent_success_obj (lib : Lib) (s fmt : String) (r : ParseResult)
    (h : parseMixedContent lib s fmt = .ok r) (hs : r.success = true) :
    ∃ kvs, r.data = .obj kvs := by
  unfold parseMixedContent at h
  cases hm : mixedScan lib fmt (braceCandidates s) none with
  | error e => rw [hm] at h; cases h
  | ok o =>
    rw [hm] at h
    cases o with
    | some r2 =>
      cases Except.ok.inj h
      exact mixedScan_success_obj lib fmt _ none r (by intro b hb; cases hb) hm hs
    | none =>
      cases Except.ok.inj h
      exact ⟨_, rfl⟩

theorem strategy_success_obj (lib : Lib) (s fmt : String) :
    ∀ nr ∈ strategyResults lib s fmt, ∀ r : ParseResult,
      nr.2 = .ok r → r.success = true → ∃ kvs, r.data = .obj kvs := by
  intro nr hm r hr hs
  simp only [strategyResults, List.mem_cons, List.mem_singleton] at hm
  rcases hm with rfl | rfl | rfl | rfl | h
  · exact parseCleanJson_success_obj lib s fmt r hr hs
  · exact parseMarkdownJson_success_obj lib s fmt r hr hs
  · exact parseMixedContent_success_obj lib s fmt r hr hs
  · cases Except.ok.inj hr
    exact ⟨_, rfl⟩
  · simp at h

theorem strategyResults_firstSuccess (lib : Lib) (s fmt : String) :
    ∃ d, firstSuccessData (strategyResults lib s fmt) = some d := by
  have h := firstSuccessData_of_last
    [("_parse_clean_json", parseCleanJson lib s fmt),
     ("_parse_markdown_json", parseMarkdownJson lib s fmt),
     ("_parse_mixed_content", parseMixedContent lib s fmt)]
    "_parse_fallback_text" (parseFallbackText s fmt)
    (parseFallbackText_always_succeeds s fmt).1
  cases hf : firstSuccessData (strategyResults lib s fmt) with
  | some d => exact ⟨d, rfl⟩
  | none =>
    rw [show strategyResults lib s fmt =
      [("_parse_clean_json", parseCleanJson lib s fmt),
       ("_parse_markdown_json", parseMarkdownJson lib s fmt),
       ("_parse_mixed_content", parseMixedContent lib s fmt)] ++
      [("_parse_fallback_text", Except.ok (parseFallbackText s fmt))] from rfl] at hf
    rw [hf] at h
    simp at h

/-- C1: parse_response raises exactly on empty or whitespace-only input,
and for every other input string and every expected-format tag it raises
nothing and returns a mapping (a dict), whatever the decoder and regex
library return. -/
theorem parse_response_total_on_nonempty (lib : Lib) (s fmt : String) :
    ((s = "" ∨ pyStrip s = "") →
      parse_response lib s fmt = .error (.plain "Leere Response erhalten")) ∧
    (¬ (s = "" ∨ pyStrip s = "") →
      ∃ kvs, parse_response lib s fmt = .ok (.obj kvs)) := by
  constructor
  · intro h
    unfold parse_response
    rw [if_pos h]
  · intro h
    obtain ⟨d, hd⟩ := strategyResults_firstSuccess lib s
      (if fmt = "auto" then detectFormat s else fmt)
    obtain ⟨nr, hm, r, hrok, hrs, hrd⟩ := firstSuccessData_mem _ _ hd
    obtain ⟨kvs, hkvs⟩ := strategy_success_obj lib s
      (if fmt = "auto" then detectFormat s else fmt) nr hm r hrok hrs
    refine ⟨kvs, ?_⟩
    unfold parse_response
    rw [if_neg h]
    simp only []
    rw [runStrategyList_firstSuccess _ _ _ hd]
    rw [← hrd, hkvs]

/-- C1 witness: whitespace-only input raises the empty-response error;
the non-empty input "hallo" yields a mapping. -/
theorem parse_response_total_on_nonempty_witness :
    parse_response trivLib "   " "quick_json" =
      .error (.plain "Leere Response erhalten") ∧
    ∃ kvs, parse_response trivLib "hallo" "quick_json" = .ok (.obj kvs) :=
  ⟨(parse_response_total_on_nonempty trivLib "   " "quick_json").1 (by decide),
   (parse_response_total_on_nonempty trivLib "hallo" "quick_json").2 (by decide)⟩

/-- C2: on every non-empty input, `parse_response` returns exactly what
the specification's ordered chain prescribes — the data of the first
strategy (direct, fenced, embedded, heuristic text, in that order) whose
result is valid, otherwise the non-empty data of the best-by-confidence
attempted result, otherwise the textual fallback — for every behaviour
of the decoding and regex library. -/
theorem parse_response_follows_strategy_chain (lib : Lib) (s fmt : String)
    (h : ¬ (s = "" ∨ pyStrip s = "")) :
    parse_response lib s fmt =
      .ok (chainSpecC2
        (strategyResults lib s (if fmt = "auto" then detectFormat s else fmt)) s) := by
  obtain ⟨d, hd⟩ := strategyResults_firstSuccess lib s
    (if fmt = "auto" then detectFormat s else fmt)
  unfold parse_response
  rw [if_neg h]
  simp only []
  rw [runStrategyList_firstSuccess _ _ _ hd]
  unfold chainSpecC2
  rw [hd]

/-- C2 witness: the chain equation at the concrete input "hallo". -/
theorem parse_response_follows_strategy_chain_witness :
    parse_response trivLib "hallo" "quick_json" =
      .ok (chainSpecC2
        (strategyResults trivLib "hallo"
          (if "quick_json" = "auto" then detectFormat "hallo" else "quick_json"))
        "hallo") :=
  parse_response_follows_strategy_chain trivLib "hallo" "quick_json" (by decide)

/-- C10: `_parse_fallback_text` always returns success with a non-empty
mapping (each of its three branches populates keys unconditionally), so
on every non-empty input the strategy loop of `parse_response` returns
early and the terminal fallback `_create_text_fallback` is unreachable. -/
theorem fallback_text_always_succeeds (lib : Lib) (s fmt : String) :
    (parseFallbackText s fmt).success = true ∧
    jTruthy (parseFallbackText s fmt).data = true ∧
    (¬ (s = "" ∨ pyStrip s = "") →
      ∃ d, runStrategyList (strategyResults lib s
            (if fmt = "auto" then detectFormat s else fmt)) ⟨[], none⟩ = .inl d ∧
        parse_response lib s fmt = .ok d) := by
  refine ⟨(parseFallbackText_always_succeeds s fmt).1,
    (parseFallbackText_always_succeeds s fmt).2, ?_⟩
  intro h
  obtain ⟨d, hd⟩ := strategyResults_firstSuccess lib s
    (if fmt = "auto" then detectFormat s else fmt)
  refine ⟨d, runStrategyList_firstSuccess _ _ _ hd, ?_⟩
  unfold parse_response
  rw [if_neg h]
  simp only []
  rw [runStrategyList_firstSuccess _ _ _ hd]

/-- C10 witness: at the concrete input "hallo" with the plain-text format
tag, the loop returns early. -/
theorem fallback_text_always_succeeds_witness :
    (parseFallbackText "hallo" "text").success = true ∧
    ∃ d, runStrategyList (strategyResults trivLib "hallo"
          (if "text" = "auto" then detectFormat "hallo" else "text")) ⟨[], none⟩ = .inl d ∧
      parse_response trivLib "hallo" "text" = .ok d :=
  ⟨(fallback_text_always_succeeds trivLib "hallo" "text").1,
   (fallback_text_always_succeeds trivLib "hallo" "text").2.2 (by decide)⟩

/-! ## Lemmas about heuristic-extraction confidence -/

theorem sectionFold_conf_ge (fmt : String) :
    ∀ (secs : List (String × String)) (st : List (String × JValue) × Rat),
      st.2 ≤ (secs.foldl
        (fun (acc : List (String × JValue) × Rat) sec =>
          match mapSectionToField sec.1 fmt with
          | some fld => (jdictSet acc.1 fld (.str (pyStrip sec.2)), acc.2 + 1 / 10)
          | none => acc) st).2 := by
  intro secs
  induction secs with
  | nil => intro st; simp
  | cons sec rest ih =>
    intro st
    simp only [List.foldl_cons]
    cases hm : mapSectionToField sec.1 fmt with
    | some fld =>
      refine le_trans ?_ (ih _)
      simp only []
      linarith
    | none => exact ih st

/-- C8 counterexample: at the concrete input "hallo" with the quick
format, the section-based heuristic extraction (reached from strategy 3)
returns confidence 0.6, outside the claimed 0.3-0.4 cap. -/
theorem structured_text_confidence_above_cap :
    (extractStructuredText "hallo" "quick_json").confidence = 3 / 5 ∧
    ¬ ((extractStructuredText "hallo" "quick_json").confidence ≤ 2 / 5) := by
  have h2 : (extractStructuredText "hallo" "quick_json").confidence =
      min ((4 : Rat) / 10 + 2 / 10) 1 := by
    unfold extractStructuredText
    rw [show findTextSections "hallo" = [] from rfl]
    rfl
  rw [h2, min_eq_left (by norm_num : ((4 : Rat) / 10 + 2 / 10) ≤ 1)]
  constructor
  · norm_num
  · norm_num

/-- C8 (amended): the strategy-4 fallback parser returns confidence
exactly 0.3 regardless of what it extracts; the section-based
heuristic extraction used as the tail of strategy 3 instead returns a
confidence between 0.6 and 1, growing with each mapped section. -/
theorem heuristic_text_confidences (s fmt : String) :
    (parseFallbackText s fmt).confidence = 3 / 10 ∧
    3 / 5 ≤ (extractStructuredText s fmt).confidence ∧
    (extractStructuredText s fmt).confidence ≤ 1 := by
  refine ⟨rfl, ?_, ?_⟩
  · unfold extractStructuredText
    simp only []
    refine le_min ?_ (by norm_num)
    have := sectionFold_conf_ge fmt (findTextSections s) ([], 4 / 10)
    simp only [] at this
    linarith
  · unfold extractStructuredText
    simp only []
    exact min_le_right _ _

/-! ## Lemmas bounding every confidence value -/

theorem foldl_stepFactor_nonneg :
    ∀ (steps : List JValue) (q : Rat), 0 ≤ q → 0 ≤ steps.foldl stepFactor q := by
  intro steps
  induction steps with
  | nil => intro q hq; simpa using hq
  | cons st rest ih =>
    intro q hq
    simp only [List.foldl_cons]
    apply ih
    cases st with
    | obj kvs => exact mul_nonneg hq (div_nonneg (Nat.cast_nonneg _) (by norm_num))
    | null => exact mul_nonneg hq (by norm_num)
    | bool b => exact mul_nonneg hq (by norm_num)
    | num n => exact mul_nonneg hq (by norm_num)
    | str s => exact mul_nonneg hq (by norm_num)
    | arr xs => exact mul_nonneg hq (by norm_num)

theorem validateAnalysisStructure_bounds (kvs : List (String × JValue)) :
    0 ≤ validateAnalysisStructure kvs ∧ validateAnalysisStructure kvs ≤ 1 := by
  unfold validateAnalysisStructure
  simp only []
  refine ⟨le_min ?_ (by norm_num), min_le_right _ _⟩
  have h1 : (0 : Rat) ≤
      (match objGetD kvs "handlungsschritte" (.arr []) with
       | .arr steps => steps.foldl stepFactor 1
       | _ => 1) := by
    cases objGetD kvs "handlungsschritte" (.arr []) with
    | arr steps => exact foldl_stepFactor_nonneg steps 1 (by norm_num)
    | null => norm_num
    | bool b => norm_num
    | num n => norm_num
    | str s => norm_num
    | obj o => norm_num
  cases objGetD kvs "technische_loesungen" (.arr []) with
  | arr sols =>
    simp only []
    split
    · exact mul_nonneg h1 (by norm_num)
    · exact h1
  | null => exact h1
  | bool b => exact h1
  | num n => exact h1
  | str s => exact h1
  | obj o => exact h1

theorem validateFeasibilityStructure_bounds (kvs : List (String × JValue))
    (q : Rat) (h : validateFeasibilityStructure kvs = .ok q) :
    0 ≤ q ∧ q ≤ 1 := by
  unfold validateFeasibilityStructure at h
  cases hf : jLowerStr (objGetD kvs "machbarkeit" (.str "")) with
  | error e => rw [hf] at h; cases h
  | ok feas =>
    rw [hf] at h
    simp only [] at h
    cases hr : jLowerStr (objGetD kvs "empfehlung" (.str "")) with
    | error e => rw [hr] at h; cases h
    | ok rcm =>
      rw [hr] at h
      simp only [] at h
      cases Except.ok.inj h
      constructor <;> split <;> split <;> norm_num

theorem ratio_bounds (ef : List String) (p : String → Bool)
    (hne : ef.isEmpty = false) :
    0 ≤ ((ef.filter p).length : Rat) / (ef.length : Rat) ∧
    ((ef.filter p).length : Rat) / (ef.length : Rat) ≤ 1 := by
  have hlen : 0 < ef.length := by
    cases ef with
    | nil => simp at hne
    | cons a l => simp
  have hlenq : (0 : Rat) < (ef.length : Rat) := by exact_mod_cast hlen
  constructor
  · exact div_nonneg (Nat.cast_nonneg _) hlenq.le
  · rw [div_le_one hlenq]
    exact_mod_cast List.length_filter_le p ef

theorem validateStructure_conf_bounds (data : JValue) (fmt : String)
    (v : ValidationOut) (h : validateStructure data fmt = .ok v) :
    0 ≤ v.confidence ∧ v.confidence ≤ 1 := by
  cases data with
  | obj kvs =>
    unfold validateStructure at h
    simp only [] at h
    by_cases he : (expectedFields fmt).isEmpty
    · rw [if_pos he] at h
      try simp only [] at h
      cases Except.ok.inj h
      simp only []
      split <;> norm_num
    · rw [if_neg he] at h
      try simp only [] at h
      have hr := ratio_bounds (expectedFields fmt) (fun f => objMem kvs f)
        (Bool.not_eq_true _ ▸ eq_false_of_ne_true he)
      by_cases h1 : fmt = "structured_json"
      · rw [if_pos h1] at h
        simp only [] at h
        cases Except.ok.inj h
        simp only []
        have ha := validateAnalysisStructure_bounds kvs
        exact ⟨mul_nonneg hr.1 ha.1, mul_le_one₀ hr.2 ha.1 ha.2⟩
      · rw [if_neg h1] at h
        by_cases h2 : fmt = "quick_json"
        · rw [if_pos h2] at h
          cases hq : validateFeasibilityStructure kvs with
          | error e => rw [hq] at h; simp only [] at h; cases h
          | ok qf =>
            rw [hq] at h
            simp only [] at h
            cases Except.ok.inj h
            simp only []
            have hb := validateFeasibilityStructure_bounds kvs qf hq
            exact ⟨mul_nonneg hr.1 hb.1, mul_le_one₀ hr.2 hb.1 hb.2⟩
        · rw [if_neg h2] at h
          simp only [] at h
          cases Except.ok.inj h
          simp only []
          exact hr
  | null => rw [show validateStructure .null fmt = .ok ⟨false, 0, ["Response ist kein Dictionary"], []⟩ from rfl] at h; cases Except.ok.inj h; norm_num
  | bool b => rw [show validateStructure (.bool b) fmt = .ok ⟨false, 0, ["Response ist kein Dictionary"], []⟩ from rfl] at h; cases Except.ok.inj h; norm_num
  | num q => rw [show validateStructure (.num q) fmt = .ok ⟨false, 0, ["Response ist kein Dictionary"], []⟩ from rfl] at h; cases Except.ok.inj h; norm_num
  | str s => rw [show validateStructure (.str s) fmt = .ok ⟨false, 0, ["Response ist kein Dictionary"], []⟩ from rfl] at h; cases Except.ok.inj h; norm_num
  | arr xs => rw [show validateStructure (.arr xs) fmt = .ok ⟨false, 0, ["Response ist kein Dictionary"], []⟩ from rfl] at h; cases Except.ok.inj h; norm_num

theorem parseCleanJson_conf_bounds (lib : Lib) (s fmt : String) (r : ParseResult)
    (h : parseCleanJson lib s fmt = .ok r) : 0 ≤ r.confidence ∧ r.confidence ≤ 1 := by
  unfold parseCleanJson at h
  cases hload : lib.jsonLoads (pyStrip s) with
  | none => rw [hload] at h; cases Except.ok.inj h; norm_num
  | some data =>
    rw [hload] at h
    simp only [] at h
    cases hval : validateStructure data fmt with
    | error e => rw [hval] at h; cases h
    | ok v =>
      rw [hval] at h
      cases Except.ok.inj h
      exact validateStructure_conf_bounds data fmt v hval

theorem mdScanMatches_conf_bounds (lib : Lib) (fmt : String) :
    ∀ (ms : List String) (r : ParseResult),
      mdScanMatches lib fmt ms = .ok (some r) →
      0 ≤ r.confidence ∧ r.confidence ≤ 1 := by
  intro ms
  induction ms with
  | nil => intro r h; simp [mdScanMatches] at h
  | cons m rest ih =>
    intro r h
    unfold mdScanMatches at h
    cases hload : lib.jsonLoads (cleanJsonString lib m) with
    | none => rw [hload] at h; exact ih r h
    | some data =>
      rw [hload] at h
      simp only [] at h
      cases hval : validateStructure data fmt with
      | error e => rw [hval] at h; cases h
      | ok v =>
        rw [hval] at h
        simp only [] at h
        by_cases hc : (v.valid = true ∨ v.confidence > 1 / 2)
        · rw [if_pos hc] at h
          cases Except.ok.inj h
          cases Option.some.inj (Except.ok.inj h)
          exact validateStructure_conf_bounds data fmt v hval
        · rw [if_neg hc] at h
          exact ih r h

theorem mdScanPatterns_conf_bounds (lib : Lib) (s fmt : String) :
    ∀ (pats : List Nat) (r : ParseResult),
      mdScanPatterns lib s fmt pats = .ok (some r) →
      0 ≤ r.confidence ∧ r.confidence ≤ 1 := by
  intro pats
  induction pats with
  | nil => intro r h; simp [mdScanPatterns] at h
  | cons i rest ih =>
    intro r h
    unfold mdScanPatterns at h
    cases hm : mdScanMatches lib fmt (lib.findall i s) with
    | error e => rw [hm] at h; cases h
    | ok o =>
      rw [hm] at h
      cases o with
      | some r2 =>
        cases Option.some.inj (Except.ok.inj h)
        exact mdScanMatches_conf_bounds lib fmt _ _ hm
      | none => exact ih r h

theorem parseMarkdownJson_conf_bounds (lib : Lib) (s fmt : String)
    (r : ParseResult) (h : parseMarkdownJson lib s fmt = .ok r) :
    0 ≤ r.confidence ∧ r.confidence ≤ 1 := by
  unfold parseMarkdownJson at h
  cases hp : mdScanPatterns lib s fmt [0, 1, 2, 3] with
  | error e => rw [hp] at h; cases h
  | ok o =>
    rw [hp] at h
    cases o with
    | some r2 =>
      cases Except.ok.inj h
      exact mdScanPatterns_conf_bounds lib s fmt _ _ hp
    | none => cases Except.ok.inj h; norm_num

theorem extractStructuredText_conf_bounds (s fmt : String) :
    0 ≤ (extractStructuredText s fmt).confidence ∧
    (extractStructuredText s fmt).confidence ≤ 1 := by
  constructor
  · unfold extractStructuredText
    simp only []
    refine le_min ?_ (by norm_num)
    have := sectionFold_conf_ge fmt (findTextSections s) ([], 4 / 10)
    simp only [] at this
    linarith
  · unfold extractStructuredText
    simp only []
    exact min_le_right _ _

theorem mixedScan_conf_bounds (lib : Lib) (fmt : String) :
    ∀ (cands : List String) (best : Option ParseResult) (r : ParseResult),
      (∀ b, best = some b → 0 ≤ b.confidence ∧ b.confidence ≤ 1) →
      mixedScan lib fmt cands best = .ok (some r) →
      0 ≤ r.confidence ∧ r.confidence ≤ 1 := by
  intro cands
  induction cands with
  | nil =>
    intro best r hinv h
    simp only [mixedScan] at h
    exact hinv r (Except.ok.inj h)
  | cons c rest ih =>
    intro best r hinv h
    unfold mixedScan at h
    cases hload : lib.jsonLoads (cleanJsonString lib c) with
    | none => rw [hload] at h; exact ih best r hinv h
    | some data =>
      rw [hload] at h
      simp only [] at h
      cases hval : validateStructure data fmt with
      | error e => rw [hval] at h; cases h
      | ok v =>
        rw [hval] at h
        simp only [] at h
        refine ih _ r ?_ h
        intro b hb
        cases best with
        | none =>
          cases Option.some.inj hb
          exact validateStructure_conf_bounds data fmt v hval
        | some b0 =>
          simp only [] at hb
          by_cases hc : v.confidence > b0.confidence
          · rw [if_pos hc] at hb
            cases Option.some.inj hb
            exact validateStructure_conf_bounds data fmt v hval
          · rw [if_neg hc] at hb
            exact hinv b hb

theorem parseMixedContent_conf_bounds (lib : Lib) (s fmt : String)
    (r : ParseResult) (h : parseMixedContent lib s fmt = .ok r) :
    0 ≤ r.confidence ∧ r.confidence ≤ 1 := by
  unfold parseMixedContent at h
  cases hm : mixedScan lib fmt (braceCandidates s) none with
  | error e => rw [hm] at h; cases h
  | ok o =>
    rw [hm] at h
    cases o with
    | some r2 =>
      cases Except.ok.inj h
      exact mixedScan_conf_bounds lib fmt _ none _ (by intro b hb; cases hb) hm
    | none =>
      cases Except.ok.inj h
      exact extractStructuredText_conf_bounds s fmt

theorem lengthScore_bounds (n : Nat) : 0 ≤ lengthScore n ∧ lengthScore n ≤ 1 := by
  unfold lengthScore
  split
  · norm_num
  · split
    · norm_num
    · split <;> norm_num

theorem detailScore_bounds (n : Nat) : 0 ≤ detailScore n ∧ detailScore n ≤ 1 := by
  unfold detailScore
  split
  · norm_num
  · split
    · norm_num
    · split <;> norm_num

theorem countPresent_le (parsed : JValue) :
    ∀ (l : List String) (n : Nat), countPresent parsed l = .ok n → n ≤ l.length := by
  intro l
  induction l with
  | nil => intro n h; cases Except.ok.inj h; simp
  | cons f rest ih =>
    intro n h
    unfold countPresent at h
    cases hc : jContains parsed f with
    | error e => rw [hc] at h; cases h
    | ok b =>
      rw [hc] at h
      simp only [] at h
      cases hn : countPresent parsed rest with
      | error e => rw [hn] at h; cases h
      | ok m =>
        rw [hn] at h
        cases Except.ok.inj h
        have := ih m hn
        cases b <;> simp <;> omega

theorem avg_bounds (l : List Rat) (hne : l ≠ [])
    (h : ∀ x ∈ l, 0 ≤ x ∧ x ≤ 1) :
    0 ≤ l.sum / (l.length : Rat) ∧ l.sum / (l.length : Rat) ≤ 1 := by
  have hlen : (0 : Rat) < (l.length : Rat) := by
    cases l with
    | nil => cases hne rfl
    | cons a t => exact_mod_cast t.length.succ_pos
  constructor
  · exact div_nonneg (List.sum_nonneg (fun x hx => (h x hx).1)) hlen.le
  · rw [div_le_one hlen]
    calc l.sum ≤ l.length • (1 : Rat) :=
          List.sum_le_card_nsmul l 1 (fun x hx => (h x hx).2)
      _ = (l.length : Rat) := by simp

theorem completenessFactor_bounds (parsed : JValue) (required : List String)
    (f0 : List Rat) (h : completenessFactor parsed required = .ok f0) :
    ∀ x ∈ f0, 0 ≤ x ∧ x ≤ 1 := by
  unfold completenessFactor at h
  by_cases he : required.isEmpty
  · rw [if_pos he] at h
    cases Except.ok.inj h
    intro x hx
    simp at hx
  · rw [if_neg he] at h
    cases hc : countPresent parsed required with
    | error e => rw [hc] at h; cases h
    | ok p =>
      rw [hc] at h
      cases Except.ok.inj h
      intro x hx
      rw [List.mem_singleton] at hx
      subst hx
      have hple := countPresent_le parsed required p hc
      have hlen : 0 < required.length := by
        cases required with
        | nil => simp at he
        | cons a t => simp
      have hlenq : (0 : Rat) < (required.length : Rat) := by exact_mod_cast hlen
      constructor
      · exact div_nonneg (Nat.cast_nonneg _) hlenq.le
      · rw [div_le_one hlenq]
        exact_mod_cast hple

theorem calculateConfidenceScore_bounds (parsed : JValue) (raw : String)
    (tmpl : String) (q : Rat)
    (h : calculateConfidenceScore parsed raw tmpl = .ok q) : 0 ≤ q ∧ q ≤ 1 := by
  unfold calculateConfidenceScore at h
  cases hc : completenessFactor parsed (engineExpectedFields tmpl) with
  | error e => rw [hc] at h; cases h
  | ok factors0 =>
    rw [hc] at h
    simp only [] at h
    cases hd : detailCount parsed
        ["handlungsschritte", "technische_loesungen", "naechste_schritte"] with
    | error e => rw [hd] at h; cases h
    | ok d =>
      rw [hd] at h
      cases Except.ok.inj h
      have hmem : ∀ x ∈ ((factors0 ++ [lengthScore raw.data.length]) ++
          [if jTruthy parsed ∧ jIsObj parsed then (1 : Rat) else 3 / 10]) ++
          [detailScore d], 0 ≤ x ∧ x ≤ 1 := by
        intro x hx
        simp only [List.mem_append, List.mem_singleton] at hx
        rcases hx with ((hx | rfl) | rfl) | rfl
        · exact completenessFactor_bounds parsed _ factors0 hc x hx
        · exact lengthScore_bounds _
        · split <;> norm_num
        · exact detailScore_bounds _
      have hne : ((factors0 ++ [lengthScore raw.data.length]) ++
          [if jTruthy parsed ∧ jIsObj parsed then (1 : Rat) else 3 / 10]) ++
          [detailScore d] ≠ [] := by simp
      rw [if_neg (by simp [List.isEmpty_iff])]
      exact avg_bounds _ hne hmem

/-- C4: every confidence the system produces lies in the unit interval:
the per-strategy confidences of all four parser strategies on every code
path (a raised strategy produces none), and the orchestrator's overall
analysis confidence whenever it is computed at all. -/
theorem confidence_always_in_unit_range (lib : Lib) (s fmt : String)
    (parsed : JValue) (raw tmpl : String) :
    strategyConfIn01 (parseCleanJson lib s fmt) ∧
    strategyConfIn01 (parseMarkdownJson lib s fmt) ∧
    strategyConfIn01 (parseMixedContent lib s fmt) ∧
    strategyConfIn01 (.ok (parseFallbackText s fmt)) ∧
    calcConfIn01 (calculateConfidenceScore parsed raw tmpl) := by
  refine ⟨?_, ?_, ?_, ?_, ?_⟩
  · cases h : parseCleanJson lib s fmt with
    | error e => trivial
    | ok r => exact parseCleanJson_conf_bounds lib s fmt r h
  · cases h : parseMarkdownJson lib s fmt with
    | error e => trivial
    | ok r => exact parseMarkdownJson_conf_bounds lib s fmt r h
  · cases h : parseMixedContent lib s fmt with
    | error e => trivial
    | ok r => exact parseMixedContent_conf_bounds lib s fmt r h
  · show 0 ≤ (parseFallbackText s fmt).confidence ∧ (parseFallbackText s fmt).confidence ≤ 1
    rw [show (parseFallbackText s fmt).confidence = 3 / 10 from rfl]
    norm_num
  · cases h : calculateConfidenceScore parsed raw tmpl with
    | error e => trivial
    | ok q => exact calculateConfidenceScore_bounds parsed raw tmpl q h

/-! ## Lemmas about the feasibility probe -/

theorem append_ne_empty_left (a b : String) (ha : a.data ≠ []) : a ++ b ≠ "" := by
  intro h
  apply ha
  have h2 := congrArg String.data h
  rw [String.data_append] at h2
  exact (List.append_eq_nil.mp h2).1

theorem wrapEngineErr_ne_empty (e : PyErr) : wrapEngineErr e ≠ "" := by
  cases e with
  | lm m => exact append_ne_empty_left _ _ (by decide)
  | plain m => exact append_ne_empty_left _ _ (by decide)

theorem quote_prefix_ne_empty (v : JValue) (t : String) :
    ("'" ++ jTypeName v) ++ t ≠ "" := by
  apply append_ne_empty_left
  cases v <;> simp only [jTypeName] <;> decide

theorem analyzeUseCase_error_nonempty (lib : Lib) (env : AnalyzeEnv)
    (tmpl msg : String) (h : analyzeUseCase lib env tmpl = .error msg) :
    msg ≠ "" := by
  unfold analyzeUseCase at h
  cases hb : analyzeBody lib env tmpl with
  | ok a => rw [hb] at h; cases h
  | error e =>
    rw [hb] at h
    cases Except.error.inj h
    exact wrapEngineErr_ne_empty e

theorem parse_response_error_shape (lib : Lib) (s fmt : String) (e : PyErr)
    (h : parse_response lib s fmt = .error e) :
    e = .plain "Leere Response erhalten" := by
  unfold parse_response at h
  by_cases hb : (s = "" ∨ pyStrip s = "")
  · rw [if_pos hb] at h
    exact (Except.error.inj h).symm
  · rw [if_neg hb] at h
    simp only [] at h
    obtain ⟨d, hd⟩ := strategyResults_firstSuccess lib s
      (if fmt = "auto" then detectFormat s else fmt)
    rw [runStrategyList_firstSuccess _ _ _ hd] at h
    cases h

/-- C5: the quick feasibility probe never propagates an exception: when
any internal step (the analysis, the model call inside it, or the
re-parse) raises, it returns exactly the record
`feasible=false, error=<non-empty message>, confidence=0.0`; on success
it returns the success record, whose feasible flag is true exactly when
the parsed recommendation field literally equals "go". -/
theorem quick_feasibility_never_raises (lib : Lib) (env : AnalyzeEnv) :
    (∃ msg, msg ≠ "" ∧ quickFeasibilityCheck lib env = feasErrRecord msg) ∨
    (∃ a kvs, analyzeUseCase lib env "quick_feasibility" = .ok a ∧
      parse_response lib a.rawResponse "quick_json" = .ok (.obj kvs) ∧
      quickFeasibilityCheck lib env = feasOkRecord a kvs ∧
      recGet (feasOkRecord a kvs) "feasible" =
        some (.b (jEqStr (objGetD kvs "empfehlung" (.str "überdenken")) "go"))) := by
  unfold quickFeasibilityCheck
  cases ha : analyzeUseCase lib env "quick_feasibility" with
  | error msg =>
    exact .inl ⟨msg, analyzeUseCase_error_nonempty lib env _ msg ha, rfl⟩
  | ok a =>
    simp only []
    cases hp : parse_response lib a.rawResponse "quick_json" with
    | error e =>
      refine .inl ⟨e.msg, ?_, rfl⟩
      rw [parse_response_error_shape lib _ _ e hp]
      decide
    | ok parsed =>
      cases parsed with
      | obj kvs => exact .inr ⟨a, kvs, rfl, hp, rfl, rfl⟩
      | null => exact .inl ⟨_, quote_prefix_ne_empty .null _, rfl⟩
      | bool b => exact .inl ⟨_, quote_prefix_ne_empty (.bool b) _, rfl⟩
      | num q => exact .inl ⟨_, quote_prefix_ne_empty (.num q) _, rfl⟩
      | str s => exact .inl ⟨_, quote_prefix_ne_empty (.str s) _, rfl⟩
      | arr xs => exact .inl ⟨_, quote_prefix_ne_empty (.arr xs) _, rfl⟩

/-! ## Lemmas about the comparison ranking -/

theorem lex3Le_refl (a : Rat × Rat × Rat) : lex3Le a a :=
  .inr ⟨rfl, .inr ⟨rfl, le_refl _⟩⟩

theorem lex3Le_trans (a b c : Rat × Rat × Rat)
    (h1 : lex3Le a b) (h2 : lex3Le b c) : lex3Le a c := by
  unfold lex3Le at h1 h2 ⊢
  rcases h1 with h1 | ⟨e1, h1i⟩ <;> rcases h2 with h2 | ⟨e2, h2i⟩
  · left; linarith
  · left; rw [← e2]; exact h1
  · left; rw [e1]; exact h2
  · right
    refine ⟨e1.trans e2, ?_⟩
    rcases h1i with h1i | ⟨f1, h1ii⟩ <;> rcases h2i with h2i | ⟨f2, h2ii⟩
    · left; linarith
    · left; rw [← f2]; exact h1i
    · left; rw [f1]; exact h2i
    · right; exact ⟨f1.trans f2, h1ii.trans h2ii⟩

theorem lex3Le_total (a b : Rat × Rat × Rat) : lex3Le a b ∨ lex3Le b a := by
  unfold lex3Le
  rcases lt_trichotomy a.1 b.1 with h | h | h
  · exact .inl (.inl h)
  · rcases lt_trichotomy a.2.1 b.2.1 with h2 | h2 | h2
    · exact .inl (.inr ⟨h, .inl h2⟩)
    · rcases le_total a.2.2 b.2.2 with h3 | h3
      · exact .inl (.inr ⟨h, .inr ⟨h2, h3⟩⟩)
      · exact .inr (.inr ⟨h.symm, .inr ⟨h2.symm, h3⟩⟩)
    · exact .inr (.inr ⟨h.symm, .inl h2⟩)
  · exact .inr (.inl h)

theorem keyLeB_trans (a b c : Record × (Rat × Rat × Rat))
    (h1 : keyLeB a b = true) (h2 : keyLeB b c = true) : keyLeB a c = true := by
  simp only [keyLeB, decide_eq_true_eq] at h1 h2 ⊢
  exact lex3Le_trans _ _ _ h2 h1

theorem keyLeB_total (a b : Record × (Rat × Rat × Rat)) :
    (keyLeB a b || keyLeB b a) = true := by
  simp only [keyLeB, decide_eq_true_eq, Bool.or_eq_true]
  rcases lex3Le_total b.2 a.2 with h | h
  · exact .inl h
  · exact .inr h

theorem feasComponent_eq (r : Record) :
    (match recGet r "feasible" with
     | some (.b true) => (1 : Rat)
     | _ => 0) = (if recFeasible r then 1 else 0) := by
  unfold recFeasible
  cases recGet r "feasible" with
  | none => rfl
  | some p =>
    cases p with
    | b bb => cases bb <;> rfl
    | q qq => rfl
    | s ss => rfl
    | j jj => rfl
    | an aa => rfl

theorem recKey_eq_specKey (r : Record) (k : Rat × Rat × Rat)
    (h : recKey r = .ok k) : k = specKey r := by
  unfold recKey at h
  cases hg : recGet r "effort" with
  | none =>
    rw [hg] at h
    simp only [effortToScore, jLowerStr] at h
    cases Except.ok.inj h
    unfold specKey specEffortScore
    rw [hg, feasComponent_eq]
  | some p =>
    rw [hg] at h
    cases p with
    | j v =>
      cases v with
      | str s =>
        simp only [pyValToJ, Option.getD, effortToScore, jLowerStr] at h
        cases Except.ok.inj h
        unfold specKey specEffortScore
        rw [hg, feasComponent_eq]
      | null => simp [pyValToJ, effortToScore, jLowerStr] at h
      | bool b => simp [pyValToJ, effortToScore, jLowerStr] at h
      | num q => simp [pyValToJ, effortToScore, jLowerStr] at h
      | arr xs => simp [pyValToJ, effortToScore, jLowerStr] at h
      | obj kvs => simp [pyValToJ, effortToScore, jLowerStr] at h
    | s st =>
      simp only [pyValToJ, Option.getD, effortToScore, jLowerStr] at h
      cases Except.ok.inj h
      unfold specKey specEffortScore
      rw [hg, feasComponent_eq]
    | b bb => simp [pyValToJ, effortToScore, jLowerStr] at h
    | q qq => simp [pyValToJ, effortToScore, jLowerStr] at h
    | an aa => simp [pyValToJ, effortToScore, jLowerStr] at h

theorem keyedResults_eq :
    ∀ (results : List Record) (keyed : List (Record × (Rat × Rat × Rat))),
      keyedResults results = .ok keyed →
      keyed = results.map (fun r => (r, specKey r)) := by
  intro results
  induction results with
  | nil => intro keyed h; cases Except.ok.inj h; rfl
  | cons r rest ih =>
    intro keyed h
    unfold keyedResults at h
    cases hk : recKey r with
    | error e => rw [hk] at h; cases h
    | ok k =>
      rw [hk] at h
      simp only [] at h
      cases hr : keyedResults rest with
      | error e => rw [hr] at h; cases h
      | ok ks =>
        rw [hr] at h
        cases Except.ok.inj h
        rw [List.map_cons, recKey_eq_specKey r k hk, ih ks hr]

/-- C6: `compare_use_cases` raises a comparison error for fewer than two
use cases (leaving no partial result), and whenever it returns a
comparison, the ranking is a permutation of the per-case feasibility
records sorted descending by the (feasible, confidence, effort-score)
tuple with the fixed effort mapping gering=4, mittel=3, hoch=2,
"sehr hoch"=1, other strings 2.5, and the top recommendation has a
maximal tuple. -/
theorem compare_use_cases_ranking (lib : Lib)
    (cases_ : List (UseCaseLite × AnalyzeEnv)) :
    (cases_.length < 2 → compareUseCases lib cases_ = .error (.plain compareTooFew)) ∧
    rankingSpecHolds lib cases_ (compareUseCases lib cases_) := by
  constructor
  · intro h
    unfold compareUseCases
    rw [if_pos h]
  · unfold compareUseCases
    by_cases hlen : cases_.length < 2
    · rw [if_pos hlen]
      trivial
    · rw [if_neg hlen]
      simp only []
      cases hk : keyedResults (buildFeasResults lib cases_ 0) with
      | error e => trivial
      | ok keyed =>
        have hkeyed := keyedResults_eq _ _ hk
        subst hkeyed
        have hperm0 := List.mergeSort_perm
          ((buildFeasResults lib cases_ 0).map (fun r => (r, specKey r))) keyLeB
        have hmf : (((buildFeasResults lib cases_ 0).map
            (fun r => (r, specKey r))).map (fun p => p.1)) =
            buildFeasResults lib cases_ 0 := by
          simp [List.map_map, Function.comp_def]
        have hperm : (rankKeyed ((buildFeasResults lib cases_ 0).map
            (fun r => (r, specKey r)))).Perm (buildFeasResults lib cases_ 0) := by
          unfold rankKeyed
          have := hperm0.map (fun p : Record × (Rat × Rat × Rat) => p.1)
          rwa [hmf] at this
        have hmemkey : ∀ x ∈ ((buildFeasResults lib cases_ 0).map
            (fun r => (r, specKey r))).mergeSort keyLeB, x.2 = specKey x.1 := by
          intro x hx
          have hx2 := (List.mergeSort_perm _ keyLeB).mem_iff.mp hx
          obtain ⟨r, _, rfl⟩ := List.mem_map.mp hx2
          rfl
        have hsorted := List.sorted_mergeSort keyLeB_trans keyLeB_total
          ((buildFeasResults lib cases_ 0).map (fun r => (r, specKey r)))
        have hpw : (rankKeyed ((buildFeasResults lib cases_ 0).map
            (fun r => (r, specKey r)))).Pairwise
            (fun a b => lex3Le (specKey b) (specKey a)) := by
          unfold rankKeyed
          rw [List.pairwise_map]
          refine hsorted.imp_of_mem ?_
          intro a b ha hb hab
          have e1 := hmemkey a ha
          have e2 := hmemkey b hb
          simp only [keyLeB, decide_eq_true_eq] at hab
          rw [← e1, ← e2]
          exact hab
        refine ⟨by omega, hperm, hpw, ?_⟩
        intro top htop
        simp only [] at htop
        cases hranked : rankKeyed ((buildFeasResults lib cases_ 0).map
            (fun r => (r, specKey r))) with
        | nil => rw [hranked] at htop; cases htop
        | cons hd tl =>
          rw [hranked] at htop
          cases Option.some.inj htop
          rw [hranked] at hpw
          constructor
          · exact List.mem_cons_self _ _
          · intro r hr
            rcases List.mem_cons.mp hr with rfl | hr
            · exact lex3Le_refl _
            · exact (List.pairwise_cons.mp hpw).1 r hr

/-- C6 witness: a single-case comparison raises the comparison error, and
the ranking contract holds (vacuously through the error outcome) at that
concrete input. -/
theorem compare_use_cases_ranking_witness :
    compareUseCases trivLib [(⟨none⟩, witEnv)] = .error (.plain compareTooFew) ∧
    rankingSpecHolds trivLib [(⟨none⟩, witEnv)]
      (compareUseCases trivLib [(⟨none⟩, witEnv)]) :=
  ⟨(compare_use_cases_ranking trivLib [(⟨none⟩, witEnv)]).1 (by decide),
   (compare_use_cases_ranking trivLib [(⟨none⟩, witEnv)]).2⟩

end KiMgr
